import Mathlib

/-! The memory-mapped call gate of `arch/calls.go`.

A shallow embedding of `calls.callControl`, `calls.call`, `calls.respondCode`
and `calls.invoke`, with state passed explicitly.  Words are natural numbers
reduced modulo `2^32` where the Go code converts to `uint32`; bytes are
`Fin 256`; a Go byte slice is an optional list, `none` being the nil slice.
-/

namespace arch

/-- A byte (`uint8`). -/
abbrev Byte := Fin 256

/-- A Go `[]byte`; `none` is the nil slice. -/
abbrev Bytes := Option (List Byte)

/-- Go `len` of a byte slice. -/
def Bytes.len : Bytes → Nat
  | none => 0
  | some l => l.length

/-- The elements of a byte slice (none for the nil slice). -/
def Bytes.toList : Bytes → List Byte
  | none => []
  | some l => l

/-- Conversion of a Go integer to `uint32`. -/
def uint32 (x : Int) : Nat := (x % 4294967296).toNat

/-- Conversion of a `uint32` word to `int32` (two's complement). -/
def int32 (w : Nat) : Int := if w < 2147483648 then (w : Int) else (w : Int) - 4294967296

/-- The values an `int32` can hold. -/
def inInt32 (x : Int) : Prop := -2147483648 ≤ x ∧ x < 2147483648

instance (x : Int) : Decidable (inInt32 x) := by
  unfold inInt32; exact inferInstance

/-- Modelled from the spec: the exception type `Excep` is declared outside
`calls.go`.  The spec describes it as either a fatal memory-access fault value
or the non-fatal retry sentinel. -/
inductive Excep where
  | fault (code : Nat) (arg : Nat)
  | sleep
deriving DecidableEq, Repr

/-- The retry sentinel `errSleep`. -/
def errSleep : Excep := Excep.sleep

/-- Modelled from the spec: `phyMemory` is declared outside `calls.go`.  The
spec describes it as a linear byte address space in which every read and every
write may fail with an access fault.  Which addresses fault is fixed by the
memory, not by its contents. -/
structure phyMemory where
  data : Nat → Byte
  readFault : Nat → Option Excep
  writeFault : Nat → Option Excep

/-- Modelled from the spec: `ReadByte(addr) -> (byte, fault?)`. -/
def phyMemory.ReadByte (m : phyMemory) (addr : Nat) : Byte × Option Excep :=
  match m.readFault addr with
  | some e => (0, some e)
  | none => (m.data addr, none)

/-- Modelled from the spec: `WriteByte(addr, byte) -> fault?`. -/
def phyMemory.WriteByte (m : phyMemory) (addr : Nat) (b : Byte) : Option Excep × phyMemory :=
  match m.writeFault addr with
  | some e => (some e, m)
  | none => (none, { m with data := Function.update m.data addr b })

/-- Modelled from the spec: `pageOffset` is declared outside `calls.go`.  The
spec describes the register view as a host-owned window of bytes, not
guest-addressable memory, whose accesses never fault; `bytes off` is the byte
at offset `off` of the window. -/
structure pageOffset where
  bytes : Nat → Byte

/-- Modelled from the spec: `readByte(off)`. -/
def pageOffset.readByte (p : pageOffset) (off : Nat) : Byte := p.bytes off

/-- Modelled from the spec: `readWord(off)`, four bytes, little-endian. -/
def pageOffset.readWord (p : pageOffset) (off : Nat) : Nat :=
  (p.bytes off).val + 256 * (p.bytes (off + 1)).val
    + 65536 * (p.bytes (off + 2)).val + 16777216 * (p.bytes (off + 3)).val

/-- Modelled from the spec: `writeByte(off, b)`. -/
def pageOffset.writeByte (p : pageOffset) (off : Nat) (b : Byte) : pageOffset :=
  ⟨Function.update p.bytes off b⟩

/-- The `k`-th byte of a word. -/
def wordByte (v : Nat) (k : Nat) : Byte :=
  ⟨v / 256 ^ k % 256, Nat.mod_lt _ (by decide)⟩

/-- Modelled from the spec: `writeWord(off, v)`, four bytes, little-endian. -/
def pageOffset.writeWord (p : pageOffset) (off : Nat) (v : Nat) : pageOffset :=
  ⟨Function.update (Function.update (Function.update (Function.update p.bytes
      off (wordByte v 0)) (off + 1) (wordByte v 1)) (off + 2) (wordByte v 2))
      (off + 3) (wordByte v 3)⟩

namespace vpc

/-- Modelled from the spec: the `vpc.Service` capability,
`Handle(request) -> (response, returnCode)`. -/
structure Service where
  Handle : Bytes → Bytes × Int

/-- The constants of package `vpc` used by `calls.go`; the package is not part
of the sources, so they are parameters of the embedding. -/
structure Consts where
  MaxLen : Nat
  ErrInvalidArg : Int
  ErrNotFound : Int
  ErrInternal : Int
  ErrSmallBuf : Int

end vpc

def callsControl : Nat := 0x0
def callsService : Nat := 0x4
def callsRequestAddr : Nat := 0x8
def callsRequestLen : Nat := 0xc
def callsResponseAddr : Nat := 0x10
def callsResponseSize : Nat := 0x14
def callsResponseCode : Nat := 0x18
def callsResponseLen : Nat := 0x1c
def callsSize : Nat := 0x20

/-- Modelled from the spec: a queued message `{originServiceId, payload}`;
`callsMessage` is declared outside `calls.go`. -/
structure callsMessage where
  service : Nat
  p : Bytes
deriving DecidableEq

/-- The state of `type calls struct`.  The queue is oldest-first. -/
structure calls where
  p : pageOffset
  mem : phyMemory
  services : Nat → Option vpc.Service
  enabled : Nat → Option Bool
  queue : List callsMessage

/-- Go: `func (c *calls) register(id uint32, s vpc.Service)`.  The first
component tells whether the call panics ("cannot register service 0"), the
second is the gate afterwards. -/
def calls.register (c : calls) (id : Nat) (s : vpc.Service) : Bool × calls :=
  if id = 0 then (true, c)
  else (false, { c with services := Function.update c.services id (some s) })

/-- Go: `func (c *calls) callControl(ctrl uint8, req []byte)`. -/
def calls.callControl (V : vpc.Consts) (c : calls) (ctrl : Byte) (_req : Bytes) :
    (Bytes × Int × Option Excep) × calls :=
  match ctrl.val with
  | 1 =>
    match c.queue with
    | [] => ((none, V.ErrInternal, some errSleep), c)
    | m :: _ => ((m.p, 0, none), { c with p := c.p.writeWord callsService m.service })
  | 2 => ((none, V.ErrInvalidArg, none), c)
  | 3 => ((none, V.ErrInvalidArg, none), c)
  | _ => ((none, V.ErrInvalidArg, none), c)

/-- Go: `func (c *calls) call(ctrl uint8, s uint32, req []byte)`. -/
def calls.call (V : vpc.Consts) (c : calls) (ctrl : Byte) (s : Nat) (req : Bytes) :
    (Bytes × Int × Option Excep) × calls :=
  if s = 0 then c.callControl V ctrl req
  else
    match c.services s with
    | none => ((none, V.ErrNotFound, none), c)
    | some service => (((service.Handle req).1, (service.Handle req).2, none), c)

/-- Go: `func (c *calls) respondCode(code int32)`. -/
def calls.respondCode (c : calls) (code : Int) : calls :=
  { c with p := c.p.writeWord callsResponseCode (uint32 code) }

/-- The request loop of `invoke`: `for i := range req`, reading
`ReadByte(reqAddr + uint32(i))`; `n` bytes remain, `i` is the current index. -/
def copyReq (mem : phyMemory) (reqAddr : Nat) : Nat → Nat → Except Excep (List Byte)
  | 0, _ => .ok []
  | n + 1, i =>
    match mem.ReadByte ((reqAddr + i % 4294967296) % 4294967296) with
    | (_, some exp) => .error exp
    | (b, none) =>
      match copyReq mem reqAddr n (i + 1) with
      | .error exp => .error exp
      | .ok bs => .ok (b :: bs)

/-- The response loop of `invoke`: `for i := range resp`, writing
`WriteByte(respAddr+uint32(i), resp[i])`; `i` is the current index. -/
def writeResp (respAddr : Nat) : phyMemory → Nat → List Byte → Option Excep × phyMemory
  | mem, _, [] => (none, mem)
  | mem, i, b :: bs =>
    match mem.WriteByte ((respAddr + i % 4294967296) % 4294967296) b with
    | (some exp, m) => (some exp, m)
    | (none, m) => writeResp respAddr m (i + 1) bs

/-- Lines 96-111 of `invoke`: the request buffer, or the first read fault. -/
def calls.fetchReq (c : calls) : Except Excep Bytes :=
  let reqAddr := c.p.readWord callsRequestAddr
  let reqLen := c.p.readWord callsRequestLen
  match copyReq c.mem reqAddr reqLen 0 with
  | .error exp => .error exp
  | .ok bs => .ok (if reqLen > 0 then some bs else none)

/-- Lines 137-143 of `invoke`: `if resp != nil` and the write loop. -/
def calls.storeResp (c : calls) (respAddr : Nat) (resp : Bytes) : Option Excep × phyMemory :=
  match resp with
  | none => (none, c.mem)
  | some l => writeResp respAddr c.mem 0 l

/-- Go: `func (c *calls) invoke() *Excep`, returning the exception and the
state afterwards. -/
def calls.invoke (V : vpc.Consts) (c : calls) : Option Excep × calls :=
  let control := c.p.readByte callsControl
  if control = 0 then (none, c)
  else
    let service := c.p.readWord callsService
    match c.fetchReq with
    | .error exp => (some exp, c)
    | .ok req =>
      match c.call V control service req with
      | ((_, _, some exp), c1) => (some exp, c1)
      | ((resp, code, none), c1) =>
        if code ≠ 0 then (none, c1.respondCode code)
        else
          let respAddr := c1.p.readWord callsResponseAddr
          let respSize := c1.p.readWord callsResponseSize
          let respLen := resp.len
          if respLen > V.MaxLen then (none, c1.respondCode V.ErrInternal)
          else
            let c2 : calls := { c1 with p := c1.p.writeWord callsResponseLen (uint32 respLen) }
            if uint32 respLen > respSize then (none, c2.respondCode V.ErrSmallBuf)
            else
              match c2.storeResp respAddr resp with
              | (some exp, m) => (some exp, { c2 with mem := m })
              | (none, m) =>
                let c3 : calls := { c2 with mem := m }
                let c4 := c3.respondCode 0
                (none, { c4 with p := c4.p.writeByte callsControl 0 })

/-- Go: `func (c *calls) Tick() { c.invoke() }`; the exception is dropped. -/
def calls.Tick (V : vpc.Consts) (c : calls) : calls := (c.invoke V).2

/-! ## The registers of the block, by name -/

def calls.control (c : calls) : Byte := c.p.readByte callsControl
def calls.serviceId (c : calls) : Nat := c.p.readWord callsService
def calls.requestAddr (c : calls) : Nat := c.p.readWord callsRequestAddr
def calls.requestLen (c : calls) : Nat := c.p.readWord callsRequestLen
def calls.responseAddr (c : calls) : Nat := c.p.readWord callsResponseAddr
def calls.responseBufSize (c : calls) : Nat := c.p.readWord callsResponseSize
def calls.responseCode (c : calls) : Int := int32 (c.p.readWord callsResponseCode)
def calls.responseLen (c : calls) : Nat := c.p.readWord callsResponseLen

/-- The guest address of byte `i` of a buffer at `base`: `base + uint32(i)`. -/
def byteAddr (base i : Nat) : Nat := (base + i % 4294967296) % 4294967296

/-! ## Concrete states used to instantiate the theorems -/
def demoConsts : vpc.Consts :=
  { MaxLen := 1500, ErrInvalidArg := 1, ErrNotFound := 2, ErrInternal := 3, ErrSmallBuf := 4 }

/-- A guest memory of 4096 bytes holding "AB" at address 100; every access at
or beyond 4096 faults. -/
def demoMem : phyMemory :=
  { data := fun a => if a = 100 then 65 else if a = 101 then 66 else 0
    readFault := fun a => if a < 4096 then none else some (Excep.fault 4 a)
    writeFault := fun a => if a < 4096 then none else some (Excep.fault 4 a) }

/-- A register block with the given guest-written registers, all else zero. -/
def demoRegs (control : Byte) (service reqAddr reqLen respAddr respSize : Nat) : pageOffset :=
  (((((pageOffset.writeByte ⟨fun _ => 0⟩ callsControl control).writeWord
    callsService service).writeWord callsRequestAddr reqAddr).writeWord
    callsRequestLen reqLen).writeWord callsResponseAddr respAddr).writeWord
    callsResponseSize respSize

/-- A service that echoes its request. -/
def echo : vpc.Service := ⟨fun req => (req, 0)⟩

/-- A service that answers every request with ten bytes. -/
def tenBytes : vpc.Service := ⟨fun _ => (some (List.replicate 10 7), 0)⟩

/-- A gate with `echo` registered under 7 and `tenBytes` under 8. -/
def demoCalls (p : pageOffset) (queue : List callsMessage) : calls :=
  { p := p, mem := demoMem,
    services := fun id => if id = 7 then some echo else if id = 8 then some tenBytes else none,
    enabled := fun _ => none, queue := queue }

/-- The guest re-arming a control-channel poll: control := 1, serviceId := 0. -/
def rearmPoll (c : calls) : calls :=
  { c with p := (c.p.writeByte callsControl 1).writeWord callsService 0 }

/-- What the caller of `Tick` receives: the Go function has no result, so the
exception returned by `invoke` does not reach it. -/
def calls.TickExcep (V : vpc.Consts) (c : calls) : Option Excep :=
  (fun (_ : Option Excep) => none) (c.invoke V).1

end arch

namespace lexing

/-- Declared outside the given sources; a token as `const_op.go` uses it: its
literal and its position. -/
structure Token where
  Lit : String
  Pos : Nat
deriving DecidableEq

end lexing

namespace types

/-- Declared outside the given sources; the types that `const_op.go` and
`assign.go` tell apart: the basic types, the type `number` of untyped number
constants, and `*types.Const`, a constant of a type with its `int64` value. -/
inductive T where
  | Bool
  | Float32
  | Int
  | Uint
  | Int8
  | Uint8
  | number
  | Const (Value : ℤ) (Type_ : T)
  | other (id : ℕ)
deriving DecidableEq

/-- Go: `types.NewNumber(v)`, the untyped number constant `v`. -/
def NewNumber (v : ℤ) : T := T.Const v T.number

/-- Go: `types.NewConstInt(v, t)`, the constant `v` of integer type `t`. -/
def NewConstInt (v : ℤ) (t : T) : T := T.Const v t

/-- Go: `types.NumConst(t)`: the value of an untyped number constant and
`true`; for any other type `false`, with the zero value as first result. -/
def NumConst : T → ℤ × Bool
  | T.Const v T.number => (v, true)
  | _ => (0, false)

/-- Go: `types.IsBasic(t, b)`. -/
def IsBasic (t b : T) : Bool := t == b

/-- Go: `types.IsInteger(t)`. -/
def IsInteger : T → Bool
  | T.Int => true
  | T.Uint => true
  | T.Int8 => true
  | T.Uint8 => true
  | _ => false

end types

namespace tast

/-- Declared outside the given sources; a reference as `const_op.go` uses it:
its type and whether it is single. -/
structure Ref where
  T : types.T
  single : Bool
deriving DecidableEq

/-- Go: `ref.IsSingle()`. -/
def Ref.IsSingle (r : Ref) : Bool := r.single

/-- Go: `ref.Type()`. -/
def Ref.Type (r : Ref) : types.T := r.T

/-- Go: `tast.NewRef(t)`. -/
def NewRef (t : types.T) : Ref := { T := t, single := true }

/-- Declared outside the given sources; the expressions `const_op.go` builds
(`tast.Const`, `tast.OpExpr`), and any other expression with its reference. -/
inductive Expr where
  | Const (ref : Ref)
  | OpExpr (A : Expr) (Op : lexing.Token) (B : Expr) (ref : Ref)
  | Other (ref : Ref)
deriving DecidableEq

/-- Go: `e.R()`. -/
def Expr.R : Expr → Ref
  | Expr.Const ref => ref
  | Expr.OpExpr _ _ _ ref => ref
  | Expr.Other ref => ref

/-- Go: `tast.NewConst(ref)`. -/
def NewConst (ref : Ref) : Expr := Expr.Const ref

end tast

namespace sempass

/-- An error reported through the builder: its position and its code (empty
for `Errorf`); the message text is left out. -/
structure Err where
  pos : Nat
  code : String
deriving DecidableEq

/-- The part of `builder` that `const_op.go` touches: the errors reported. -/
structure builder where
  errs : List Err
deriving DecidableEq

/-- Go: `b.CodeErrorf(pos, code, ...)`. -/
def builder.CodeErrorf (b : builder) (pos : Nat) (code : String) : builder :=
  { errs := b.errs ++ [{ pos := pos, code := code }] }

/-- Go: `b.Errorf(pos, ...)`. -/
def builder.Errorf (b : builder) (pos : Nat) : builder :=
  { errs := b.errs ++ [{ pos := pos, code := "" }] }

/-- The values an `int64` can hold. -/
def inInt64 (x : ℤ) : Prop := -9223372036854775808 ≤ x ∧ x < 9223372036854775808

instance (x : ℤ) : Decidable (inInt64 x) := by
  unfold inInt64; exact inferInstance

/-- The 64-bit two's-complement value of an integer. -/
def wrap64 (x : ℤ) : ℤ := (x + 9223372036854775808) % 18446744073709551616 - 9223372036854775808

/-- Go: `uint64(v)` for an `int64`. -/
def uint64 (v : ℤ) : ℕ := (v % 18446744073709551616).toNat

/-- Go `a + b` on `int64`. -/
def add64 (a b : ℤ) : ℤ := wrap64 (a + b)

/-- Go `a - b` on `int64`. -/
def sub64 (a b : ℤ) : ℤ := wrap64 (a - b)

/-- Go `a * b` on `int64`. -/
def mul64 (a b : ℤ) : ℤ := wrap64 (a * b)

/-- Go `-a` on `int64`. -/
def neg64 (a : ℤ) : ℤ := wrap64 (-a)

/-- Go `a & b` on `int64`. -/
def and64 (a b : ℤ) : ℤ := wrap64 (Int.land a b)

/-- Go `a | b` on `int64`. -/
def or64 (a b : ℤ) : ℤ := wrap64 (Int.lor a b)

/-- Go `a ^ b` on `int64`. -/
def xor64 (a b : ℤ) : ℤ := wrap64 (Int.xor a b)

/-- Go `a % b` on `int64`: the truncated remainder; a zero divisor is a
run-time panic, `none`. -/
def rem64 (a b : ℤ) : Option ℤ := if b = 0 then none else some (wrap64 (Int.tmod a b))

/-- Go `a / b` on `int64`: the truncated quotient; a zero divisor is a
run-time panic, `none`. -/
def div64 (a b : ℤ) : Option ℤ := if b = 0 then none else some (wrap64 (Int.tdiv a b))

/-- Go `a << uint64(n)` on `int64`: counts of 64 and more give 0.  A negative
`n` is taken to be outside the domain, `none`, so that reaching the shift
with one shows. -/
def shl64 (a n : ℤ) : Option ℤ :=
  if n < 0 then none
  else if uint64 n ≥ 64 then some 0
  else some (wrap64 (a * 2 ^ uint64 n))

/-- Go `a >> uint64(n)` on `int64`, the arithmetic shift: counts of 64 and more
give 0 or -1.  A negative `n` is taken to be outside the domain, `none`. -/
def shr64 (a n : ℤ) : Option ℤ :=
  if n < 0 then none
  else if uint64 n ≥ 64 then some (if a < 0 then -1 else 0)
  else some (a / 2 ^ uint64 n)

/-- Go: `func unaryOpConst(b *builder, opTok *lexing.Token, B tast.Expr)`,
returning the expression (`none` for nil) and the builder afterwards. -/
def unaryOpConst (b : builder) (opTok : lexing.Token) (B : tast.Expr) :
    Option tast.Expr × builder :=
  let op := opTok.Lit
  let bref := B.R
  if !bref.IsSingle then (none, b.CodeErrorf opTok.Pos "pl.invalidExprStmt")
  else
    let v := (types.NumConst bref.T).1
    let ok := (types.NumConst bref.T).2
    if ok then
      if op = "+" then (some B, b)
      else if op = "-" then (some (tast.NewConst (tast.NewRef (types.NewNumber (neg64 v)))), b)
      else (none, b.CodeErrorf opTok.Pos "pl.invalidOp")
    else
      match bref.T with
      | types.T.Const _ t =>
        if types.IsBasic t types.T.Bool then
          (none, b.CodeErrorf opTok.Pos "pl.notYetSupported")
        else if types.IsBasic t types.T.Float32 then
          (none, b.CodeErrorf opTok.Pos "pl.notYetSupported")
        else if types.IsInteger t then
          if op = "+" then (some B, b)
          else if op = "-" then
            (some (tast.NewConst (tast.NewRef (types.NewConstInt (neg64 v) t))), b)
          else (none, b.CodeErrorf opTok.Pos "pl.invalidOp")
        else (none, b.CodeErrorf opTok.Pos "pl.impossible")
      | _ => (none, b.CodeErrorf opTok.Pos "pl.expectConstExpr")

/-- The closure `r` of `binaryOpNums`. -/
def numExpr (v : ℤ) : tast.Expr := tast.NewConst (tast.NewRef (types.NewNumber v))

/-- Go: `func binaryOpNums(b *builder, opTok *lexing.Token, A, B tast.Expr)`.
The outer `none` is an operation evaluated outside its domain; otherwise the
expression (`none` for nil) and the builder afterwards. -/
def binaryOpNums (b : builder) (opTok : lexing.Token) (A B : tast.Expr) :
    Option (Option tast.Expr × builder) :=
  let op := opTok.Lit
  let va := (types.NumConst A.R.Type).1
  let vb := (types.NumConst B.R.Type).1
  if op = "+" then some (some (numExpr (add64 va vb)), b)
  else if op = "-" then some (some (numExpr (sub64 va vb)), b)
  else if op = "*" then some (some (numExpr (mul64 va vb)), b)
  else if op = "&" then some (some (numExpr (and64 va vb)), b)
  else if op = "|" then some (some (numExpr (or64 va vb)), b)
  else if op = "^" then some (some (numExpr (xor64 va vb)), b)
  else if op = "%" then
    if vb = 0 then some (none, b.CodeErrorf opTok.Pos "pl.divideByZero")
    else (rem64 va vb).map (fun v => (some (numExpr v), b))
  else if op = "/" then
    if vb = 0 then some (none, b.CodeErrorf opTok.Pos "pl.divideByZero")
    else (div64 va vb).map (fun v => (some (numExpr v), b))
  else if op = "==" ∨ op = "!=" ∨ op = ">" ∨ op = "<" ∨ op = ">=" ∨ op = "<=" then
    some (some (tast.Expr.OpExpr A opTok B (tast.NewRef types.T.Bool)), b)
  else if op = "<<" then
    if vb < 0 then some (none, b.Errorf opTok.Pos)
    else (shl64 va vb).map (fun v => (some (numExpr v), b))
  else if op = ">>" then
    if vb < 0 then some (none, b.Errorf opTok.Pos)
    else (shr64 va vb).map (fun v => (some (numExpr v), b))
  else some (none, b.CodeErrorf opTok.Pos "pl.invalidOp")

/-- The value the claim names before wrapping: the mathematical result of
`va op vb`, with the truncated quotient and remainder for "/" and "%",
`va * 2^vb` for "<<" and the floor of `va / 2^vb` for ">>". -/
def mathResult (op : String) (va vb : ℤ) : ℤ :=
  if op = "+" then va + vb
  else if op = "-" then va - vb
  else if op = "*" then va * vb
  else if op = "&" then Int.land va vb
  else if op = "|" then Int.lor va vb
  else if op = "^" then Int.xor va vb
  else if op = "%" then Int.tmod va vb
  else if op = "/" then Int.tdiv va vb
  else if op = "<<" then va * 2 ^ vb.toNat
  else if op = ">>" then va / 2 ^ vb.toNat
  else 0

/-- The operators for which `binaryOpNums` folds to a number constant. -/
def arithOps : List String := ["+", "-", "*", "&", "|", "^", "/", "%", "<<", ">>"]

/-- The comparison operators. -/
def compareOps : List String := ["==", "!=", ">", "<", ">=", "<="]

/-- When the claim says `binaryOpNums` reports an error and returns nil. -/
def errorCase (op : String) (vb : ℤ) : Prop :=
  ((op = "/" ∨ op = "%") ∧ vb = 0) ∨ ((op = "<<" ∨ op = ">>") ∧ vb < 0) ∨
    (op ∉ arithOps ∧ op ∉ compareOps)

end sempass

namespace arch

/-! ## Register block lemmas -/
theorem readByte_writeWord (p : pageOffset) (off v off' : Nat)
    (h : off' < off ∨ off + 4 ≤ off') :
    (p.writeWord off v).readByte off' = p.readByte off' := by
  simp only [pageOffset.writeWord, pageOffset.readByte]
  rw [Function.update_noteq (by omega), Function.update_noteq (by omega),
    Function.update_noteq (by omega), Function.update_noteq (by omega)]

theorem readWord_writeWord_ne (p : pageOffset) (off v off' : Nat)
    (h : off' + 4 ≤ off ∨ off + 4 ≤ off') :
    (p.writeWord off v).readWord off' = p.readWord off' := by
  have hb : ∀ k, k < 4 → (p.writeWord off v).bytes (off' + k) = p.bytes (off' + k) := by
    intro k hk
    exact readByte_writeWord p off v (off' + k) (by omega)
  have h0 := hb 0 (by omega)
  simp only [Nat.add_zero] at h0
  simp only [pageOffset.readWord, h0, hb 1 (by omega), hb 2 (by omega), hb 3 (by omega)]

theorem readWord_writeWord_eq (p : pageOffset) (off v : Nat) :
    (p.writeWord off v).readWord off = v % 4294967296 := by
  simp only [pageOffset.writeWord, pageOffset.readWord, Function.update_apply, wordByte]
  simp
  omega

theorem readByte_writeByte_eq (p : pageOffset) (off : Nat) (b : Byte) :
    (p.writeByte off b).readByte off = b := by
  simp [pageOffset.writeByte, pageOffset.readByte]

theorem readWord_writeByte_ne (p : pageOffset) (off : Nat) (b : Byte) (off' : Nat)
    (h : off < off' ∨ off' + 4 ≤ off) :
    (p.writeByte off b).readWord off' = p.readWord off' := by
  simp only [pageOffset.writeByte, pageOffset.readWord]
  rw [Function.update_noteq (by omega), Function.update_noteq (by omega),
    Function.update_noteq (by omega), Function.update_noteq (by omega)]

theorem readWord_lt (p : pageOffset) (off : Nat) : p.readWord off < 4294967296 := by
  simp only [pageOffset.readWord]
  have h0 := (p.bytes off).isLt
  have h1 := (p.bytes (off+1)).isLt
  have h2 := (p.bytes (off+2)).isLt
  have h3 := (p.bytes (off+3)).isLt
  omega

theorem copyReq_fault (mem : phyMemory) (a : Nat) (e : Excep) :
    ∀ (n i k : Nat), k < n → mem.readFault (byteAddr a (i + k)) = some e →
      (∀ j, j < k → mem.readFault (byteAddr a (i + j)) = none) →
      copyReq mem a n i = .error e := by
  intro n
  induction n with
  | zero => intro i k hk; omega
  | succ n ih =>
    intro i k hk hf hpre
    cases k with
    | zero =>
      simp only [Nat.add_zero, byteAddr] at hf
      simp only [copyReq, phyMemory.ReadByte, hf]
    | succ k =>
      have h0 := hpre 0 (by omega)
      simp only [Nat.add_zero, byteAddr] at h0
      have hrec := ih (i + 1) k (by omega) (by rw [show i + 1 + k = i + (k + 1) by omega]; exact hf)
        (fun j hj => by rw [show i + 1 + j = i + (j + 1) by omega]; exact hpre (j + 1) (by omega))
      simp only [copyReq, phyMemory.ReadByte, h0, hrec]

theorem copyReq_ok (mem : phyMemory) (a : Nat) :
    ∀ (n i : Nat), (∀ j, j < n → mem.readFault (byteAddr a (i + j)) = none) →
      copyReq mem a n i = .ok ((List.range n).map (fun j => mem.data (byteAddr a (i + j)))) := by
  intro n
  induction n with
  | zero => intro i _; simp [copyReq]
  | succ n ih =>
    intro i h
    have h0 := h 0 (by omega)
    simp only [Nat.add_zero, byteAddr] at h0
    have hrec := ih (i + 1) (fun j hj => by
      rw [show i + 1 + j = i + (j + 1) by omega]; exact h (j + 1) (by omega))
    simp only [copyReq, phyMemory.ReadByte, h0, hrec, List.range_succ_eq_map, List.map_cons,
      List.map_map, Nat.add_zero, byteAddr]
    congr 2
    apply List.map_congr_left
    intro j _
    simp only [Function.comp, byteAddr]
    rw [show i + 1 + j = i + (j + 1) by omega]

theorem writeResp_readFault (a : Nat) (l : List Byte) :
    ∀ (m : phyMemory) (i : Nat), (writeResp a m i l).2.readFault = m.readFault ∧
      (writeResp a m i l).2.writeFault = m.writeFault := by
  induction l with
  | nil => intro m i; simp [writeResp]
  | cons b bs ih =>
    intro m i
    simp only [writeResp, phyMemory.WriteByte]
    cases hf : m.writeFault ((a + i % 4294967296) % 4294967296) with
    | some e => simp
    | none => simpa using ih _ (i + 1)

theorem writeResp_none_iff (a : Nat) (l : List Byte) :
    ∀ (m : phyMemory) (i : Nat), (writeResp a m i l).1 = none ↔
      ∀ k, k < l.length → m.writeFault (byteAddr a (i + k)) = none := by
  induction l with
  | nil => intro m i; simp [writeResp]
  | cons b bs ih =>
    intro m i
    simp only [writeResp, phyMemory.WriteByte]
    cases hf : m.writeFault ((a + i % 4294967296) % 4294967296) with
    | some e =>
      simp only [List.length_cons]
      constructor
      · intro h; simp at h
      · intro h
        have h0 := h 0 (by omega)
        simp only [Nat.add_zero, byteAddr] at h0
        rw [hf] at h0; cases h0
    | none =>
      simp only [List.length_cons]
      rw [ih]
      constructor
      · intro h k hk
        cases k with
        | zero => simpa [byteAddr] using hf
        | succ k =>
          have := h k (by omega)
          rw [show i + 1 + k = i + (k + 1) by omega] at this
          exact this
      · intro h k hk
        have := h (k + 1) (by omega)
        rw [show i + 1 + k = i + (k + 1) by omega]
        exact this

theorem writeResp_data_other (a : Nat) (l : List Byte) (x : Nat) :
    ∀ (m : phyMemory) (i : Nat), (∀ k, k < l.length → x ≠ byteAddr a (i + k)) →
      (writeResp a m i l).2.data x = m.data x := by
  induction l with
  | nil => intro m i _; simp [writeResp]
  | cons b bs ih =>
    intro m i h
    simp only [writeResp, phyMemory.WriteByte]
    have h0 := h 0 (by simp)
    simp only [Nat.add_zero, byteAddr] at h0
    cases hf : m.writeFault ((a + i % 4294967296) % 4294967296) with
    | some e => simp
    | none =>
      simp only
      rw [ih _ (i + 1) (fun k hk => by
        rw [show i + 1 + k = i + (k + 1) by omega]; exact h (k + 1) (by simp; omega))]
      simp only [Function.update_apply, if_neg h0]

theorem writeResp_data (a : Nat) (l : List Byte) :
    ∀ (m : phyMemory) (i : Nat), (writeResp a m i l).1 = none → i + l.length ≤ 4294967296 →
      ∀ k (hk : k < l.length), (writeResp a m i l).2.data (byteAddr a (i + k)) = l[k] := by
  induction l with
  | nil => intro m i _ _ k hk; simp at hk
  | cons b bs ih =>
    intro m i hok hlen k hk
    simp only [List.length_cons] at hlen hk
    simp only [writeResp, phyMemory.WriteByte] at hok ⊢
    cases hf : m.writeFault ((a + i % 4294967296) % 4294967296) with
    | some e => rw [hf] at hok; simp at hok
    | none =>
      rw [hf] at hok
      simp only at hok ⊢
      cases k with
      | zero =>
        rw [writeResp_data_other]
        · simp [byteAddr]
        · intro j hj
          simp only [byteAddr]
          omega
      | succ k =>
        have := ih _ (i + 1) hok (by omega) k (by omega)
        rw [show i + 1 + k = i + (k + 1) by omega] at this
        simpa using this

theorem callControl_poll_empty (V : vpc.Consts) (c : calls) (req : Bytes) (hq : c.queue = []) :
    c.callControl V 1 req = ((none, V.ErrInternal, some errSleep), c) := by
  simp [calls.callControl, hq]

theorem callControl_poll_front (V : vpc.Consts) (c : calls) (req : Bytes) (m : callsMessage)
    (rest : List callsMessage) (hq : c.queue = m :: rest) :
    c.callControl V 1 req
      = ((m.p, 0, none), { c with p := c.p.writeWord callsService m.service }) := by
  simp [calls.callControl, hq]

theorem callControl_other (V : vpc.Consts) (c : calls) (ctrl : Byte) (req : Bytes)
    (h : ctrl ≠ 1) : c.callControl V ctrl req = ((none, V.ErrInvalidArg, none), c) := by
  have hv : ctrl.val ≠ 1 := fun hv => h (Fin.ext hv)
  unfold calls.callControl
  split
  · rename_i h1; exact absurd h1 hv
  · rfl
  · rfl
  · rfl

/-- What dispatch may change: nothing, or (successful poll) the service register. -/
theorem call_cases (V : vpc.Consts) (c : calls) (ctrl : Byte) (s : Nat) (req : Bytes) :
    (c.call V ctrl s req).2 = c ∨
    (∃ m rest, s = 0 ∧ ctrl = 1 ∧ c.queue = m :: rest ∧
      c.call V ctrl s req
        = ((m.p, 0, none), { c with p := c.p.writeWord callsService m.service })) := by
  unfold calls.call
  by_cases hs : s = 0
  · subst hs
    rw [if_pos rfl]
    by_cases h1 : ctrl = 1
    · subst h1
      by_cases hq : c.queue = []
      · left; rw [callControl_poll_empty V c req hq]
      · right
        obtain ⟨m, rest, hmr⟩ := List.exists_cons_of_ne_nil hq
        exact ⟨m, rest, rfl, rfl, hmr, callControl_poll_front V c req m rest hmr⟩
    · left; rw [callControl_other V c ctrl req h1]
  · simp only [hs, if_false]
    left
    cases c.services s <;> rfl

theorem call_unchanged (V : vpc.Consts) (c : calls) (ctrl : Byte) (s : Nat) (req : Bytes)
    (h : (c.call V ctrl s req).1.2.1 ≠ 0 ∨ (c.call V ctrl s req).1.2.2 ≠ none) :
    (c.call V ctrl s req).2 = c := by
  rcases call_cases V c ctrl s req with h1 | ⟨m, rest, _, _, _, h2⟩
  · exact h1
  · rw [h2] at h; simp at h

theorem call_frame (V : vpc.Consts) (c : calls) (ctrl : Byte) (s : Nat) (req : Bytes) :
    (c.call V ctrl s req).2.mem = c.mem ∧ (c.call V ctrl s req).2.queue = c.queue ∧
    (c.call V ctrl s req).2.services = c.services ∧
    (c.call V ctrl s req).2.enabled = c.enabled ∧
    (∀ off, off < 4 ∨ 8 ≤ off →
      (c.call V ctrl s req).2.p.readByte off = c.p.readByte off) := by
  rcases call_cases V c ctrl s req with h1 | ⟨m, rest, _, _, _, h2⟩
  · rw [h1]; simp
  · rw [h2]
    refine ⟨rfl, rfl, rfl, rfl, ?_⟩
    intro off hoff
    exact readByte_writeWord c.p callsService m.service off (by simp only [callsService]; omega)

theorem readWord_congr (p q : pageOffset) (off : Nat)
    (h : ∀ k, k < 4 → q.readByte (off + k) = p.readByte (off + k)) :
    q.readWord off = p.readWord off := by
  have h0 := h 0 (by omega)
  have h1 := h 1 (by omega)
  have h2 := h 2 (by omega)
  have h3 := h 3 (by omega)
  simp only [pageOffset.readByte, Nat.add_zero] at h0 h1 h2 h3
  simp only [pageOffset.readWord, h0, h1, h2, h3]

theorem call_readWord (V : vpc.Consts) (c : calls) (ctrl : Byte) (s : Nat) (req : Bytes)
    (off : Nat) (h : 8 ≤ off) :
    (c.call V ctrl s req).2.p.readWord off = c.p.readWord off :=
  readWord_congr _ _ off (fun k _ => (call_frame V c ctrl s req).2.2.2.2 (off + k) (by omega))

theorem invoke_idle (V : vpc.Consts) (c : calls) (h : c.control = 0) :
    c.invoke V = (none, c) := by
  simp only [calls.control] at h
  simp [calls.invoke, h]

theorem invoke_fetch_fault (V : vpc.Consts) (c : calls) (e : Excep) (h : c.control ≠ 0)
    (hf : c.fetchReq = .error e) : c.invoke V = (some e, c) := by
  simp only [calls.control] at h
  simp [calls.invoke, h, hf]

theorem invoke_call_excep (V : vpc.Consts) (c c1 : calls) (req resp : Bytes) (code : Int)
    (e : Excep) (h : c.control ≠ 0) (hf : c.fetchReq = .ok req)
    (hc : c.call V c.control c.serviceId req = ((resp, code, some e), c1)) :
    c.invoke V = (some e, c1) := by
  simp only [calls.control, calls.serviceId] at h hc
  simp [calls.invoke, h, hf, hc]

theorem invoke_code (V : vpc.Consts) (c c1 : calls) (req resp : Bytes) (code : Int)
    (h : c.control ≠ 0) (hf : c.fetchReq = .ok req)
    (hc : c.call V c.control c.serviceId req = ((resp, code, none), c1)) (hcode : code ≠ 0) :
    c.invoke V = (none, c1.respondCode code) := by
  simp only [calls.control, calls.serviceId] at h hc
  simp [calls.invoke, h, hf, hc, hcode]

theorem invoke_oversize (V : vpc.Consts) (c c1 : calls) (req resp : Bytes)
    (h : c.control ≠ 0) (hf : c.fetchReq = .ok req)
    (hc : c.call V c.control c.serviceId req = ((resp, 0, none), c1))
    (hlen : resp.len > V.MaxLen) :
    c.invoke V = (none, c1.respondCode V.ErrInternal) := by
  simp only [calls.control, calls.serviceId] at h hc
  simp [calls.invoke, h, hf, hc, hlen]

theorem invoke_smallbuf (V : vpc.Consts) (c c1 : calls) (req resp : Bytes)
    (h : c.control ≠ 0) (hf : c.fetchReq = .ok req)
    (hc : c.call V c.control c.serviceId req = ((resp, 0, none), c1))
    (hlen : resp.len ≤ V.MaxLen)
    (hbuf : uint32 resp.len > c1.p.readWord callsResponseSize) :
    c.invoke V = (none, calls.respondCode
      { c1 with p := c1.p.writeWord callsResponseLen (uint32 resp.len) } V.ErrSmallBuf) := by
  simp only [calls.control, calls.serviceId] at h hc
  have hlen' : ¬ resp.len > V.MaxLen := by omega
  simp [calls.invoke, h, hf, hc, hlen', hbuf]

theorem invoke_store (V : vpc.Consts) (c c1 : calls) (req resp : Bytes)
    (h : c.control ≠ 0) (hf : c.fetchReq = .ok req)
    (hc : c.call V c.control c.serviceId req = ((resp, 0, none), c1))
    (hlen : resp.len ≤ V.MaxLen)
    (hbuf : uint32 resp.len ≤ c1.p.readWord callsResponseSize) :
    c.invoke V =
      match calls.storeResp { c1 with p := c1.p.writeWord callsResponseLen (uint32 resp.len) }
          (c1.p.readWord callsResponseAddr) resp with
      | (some exp, m) =>
        (some exp, { c1 with p := c1.p.writeWord callsResponseLen (uint32 resp.len), mem := m })
      | (none, m) =>
        (none, { c1 with
          p := (((c1.p.writeWord callsResponseLen (uint32 resp.len)).writeWord
            callsResponseCode (uint32 0)).writeByte callsControl 0), mem := m }) := by
  simp only [calls.control, calls.serviceId] at h hc
  have hlen' : ¬ resp.len > V.MaxLen := by omega
  have hbuf' : ¬ uint32 resp.len > c1.p.readWord callsResponseSize := by omega
  simp only [calls.invoke, h, hf, hc, hlen', hbuf', if_false, ne_eq, not_true_eq_false,
    calls.respondCode]

theorem uint32_natCast (n : Nat) : uint32 (n : Int) = n % 4294967296 := by
  unfold uint32
  omega

theorem uint32_lt (x : Int) : uint32 x < 4294967296 := by
  unfold uint32
  omega

theorem int32_uint32 (x : Int) (h : inInt32 x) : int32 (uint32 x) = x := by
  unfold inInt32 at h
  unfold int32 uint32
  split_ifs <;> omega

theorem respondCode_responseCode (c : calls) (code : Int) (h : inInt32 code) :
    (c.respondCode code).responseCode = code := by
  simp only [calls.respondCode, calls.responseCode, readWord_writeWord_eq]
  rw [Nat.mod_eq_of_lt (uint32_lt code)]
  exact int32_uint32 code h

theorem respondCode_readByte (c : calls) (code : Int) (off : Nat)
    (h : off < 24 ∨ 28 ≤ off) : (c.respondCode code).p.readByte off = c.p.readByte off :=
  readByte_writeWord c.p callsResponseCode (uint32 code) off (by simp only [callsResponseCode]; omega)

theorem respondCode_readWord (c : calls) (code : Int) (off : Nat)
    (h : off + 4 ≤ 24 ∨ 28 ≤ off) : (c.respondCode code).p.readWord off = c.p.readWord off :=
  readWord_writeWord_ne c.p callsResponseCode (uint32 code) off
    (by simp only [callsResponseCode]; omega)

/-- The register block after the success path of `invoke`. -/
theorem success_regs (p : pageOffset) (v : Nat) :
    (((p.writeWord callsResponseLen v).writeWord callsResponseCode (uint32 0)).writeByte
        callsControl 0).readByte callsControl = 0 ∧
    (((p.writeWord callsResponseLen v).writeWord callsResponseCode (uint32 0)).writeByte
        callsControl 0).readWord callsResponseLen = v % 4294967296 ∧
    (((p.writeWord callsResponseLen v).writeWord callsResponseCode (uint32 0)).writeByte
        callsControl 0).readWord callsResponseCode = 0 := by
  refine ⟨readByte_writeByte_eq _ _ _, ?_, ?_⟩
  · rw [readWord_writeByte_ne _ _ _ _ (by simp [callsControl, callsResponseLen]),
      readWord_writeWord_ne _ _ _ _ (by simp [callsResponseCode, callsResponseLen]),
      readWord_writeWord_eq]
  · rw [readWord_writeByte_ne _ _ _ _ (by simp [callsControl, callsResponseCode]),
      readWord_writeWord_eq]
    rfl

theorem storeResp_mem_irrel (c : calls) (p : pageOffset) (a : Nat) (resp : Bytes) :
    calls.storeResp { c with p := p } a resp = c.storeResp a resp := by
  cases resp <;> rfl

theorem storeResp_none_iff (c : calls) (a : Nat) (resp : Bytes) :
    (c.storeResp a resp).1 = none ↔
      ∀ i, i < resp.len → c.mem.writeFault ((a + i) % 4294967296) = none := by
  cases resp with
  | none => simp [calls.storeResp, Bytes.len]
  | some l =>
    simp only [calls.storeResp, Bytes.len, writeResp_none_iff, byteAddr, Nat.zero_add,
      Nat.add_mod_mod]

theorem storeResp_data (c : calls) (a : Nat) (resp : Bytes)
    (hok : (c.storeResp a resp).1 = none) (hlen : resp.len ≤ 4294967296) :
    ∀ i (hi : i < resp.toList.length),
      (c.storeResp a resp).2.data ((a + i) % 4294967296) = resp.toList[i] := by
  cases resp with
  | none => intro i hi; simp [Bytes.toList] at hi
  | some l =>
    intro i hi
    simp only [calls.storeResp, Bytes.len, Bytes.toList] at hok hlen hi ⊢
    have := writeResp_data a l c.mem 0 hok (by omega) i hi
    simpa [byteAddr] using this

/-- C1: round trip.  For a pending call to a registered service whose `Handle`
answers the copied request with `(payload, 0)`, the payload fitting `vpc.MaxLen`
and the response buffer and no byte access faulting, `invoke` returns no
exception, sets responseLen to `len(payload)`, responseCode to 0, control to
0, and guest memory at `responseAddr + i` holds `payload[i]`. -/
theorem C1_round_trip (V : vpc.Consts) (c : calls) (svc : vpc.Service) (req payload : Bytes)
    (hctl : c.control ≠ 0) (hs : c.serviceId ≠ 0)
    (hreg : c.services c.serviceId = some svc)
    (hreq : c.fetchReq = .ok req)
    (hH : svc.Handle req = (payload, 0))
    (hmax : payload.len ≤ V.MaxLen)
    (hbuf : payload.len ≤ c.responseBufSize)
    (hw : ∀ i, i < payload.len →
      c.mem.writeFault ((c.responseAddr + i) % 4294967296) = none) :
    (c.invoke V).1 = none ∧ (c.invoke V).2.responseLen = payload.len ∧
    (c.invoke V).2.responseCode = 0 ∧ (c.invoke V).2.control = 0 ∧
    ∀ i (hi : i < payload.toList.length),
      (c.invoke V).2.mem.data ((c.responseAddr + i) % 4294967296) = payload.toList[i] := by
  have hlt : payload.len < 4294967296 :=
    Nat.lt_of_le_of_lt hbuf (readWord_lt c.p callsResponseSize)
  have hcall : c.call V c.control c.serviceId req = ((payload, 0, none), c) := by
    simp only [calls.call, if_neg hs, hreg, hH]
  have hu : uint32 (payload.len : Int) = payload.len := by
    rw [uint32_natCast, Nat.mod_eq_of_lt hlt]
  have hst := invoke_store V c c req payload hctl hreq hcall hmax
    (by rw [hu]; exact hbuf)
  have hok : (c.storeResp c.responseAddr payload).1 = none :=
    (storeResp_none_iff c c.responseAddr payload).2 hw
  rw [storeResp_mem_irrel] at hst
  have hdata := storeResp_data c c.responseAddr payload hok (by omega)
  change (c.storeResp (c.responseAddr) payload).1 = none at hok
  simp only [calls.responseAddr] at hok hdata
  generalize hsr : c.storeResp (c.p.readWord callsResponseAddr) payload = r at hst hok hdata
  obtain ⟨e, m⟩ := r
  simp only at hok
  subst hok
  simp only at hst
  rw [hst]
  obtain ⟨h1, h2, h3⟩ := success_regs c.p (uint32 (payload.len : Int))
  refine ⟨rfl, ?_, ?_, h1, hdata⟩
  · simp only [calls.responseLen]
    rw [h2, hu, Nat.mod_eq_of_lt hlt]
  · simp only [calls.responseCode, h3]
    rfl

/-- Witness of C1: service 7 echoing its input, request "AB" at address 100. -/
theorem C1_round_trip_witness :
    ((demoCalls (demoRegs 1 7 100 2 200 16) []).invoke demoConsts).1 = none ∧
    ((demoCalls (demoRegs 1 7 100 2 200 16) []).invoke demoConsts).2.responseLen
      = Bytes.len (some [65, 66]) ∧
    ((demoCalls (demoRegs 1 7 100 2 200 16) []).invoke demoConsts).2.responseCode = 0 ∧
    ((demoCalls (demoRegs 1 7 100 2 200 16) []).invoke demoConsts).2.control = 0 ∧
    ∀ i (hi : i < (Bytes.toList (some [65, 66])).length),
      ((demoCalls (demoRegs 1 7 100 2 200 16) []).invoke demoConsts).2.mem.data
        (((demoCalls (demoRegs 1 7 100 2 200 16) []).responseAddr + i) % 4294967296)
        = (Bytes.toList (some [65, 66]))[i] :=
  C1_round_trip demoConsts (demoCalls (demoRegs 1 7 100 2 200 16) []) echo
    (some [65, 66]) (some [65, 66]) (by decide) (by decide) (by rfl) (by rfl) (by rfl)
    (by decide) (by decide) (by
      intro i hi
      have h2 : i < 2 := hi
      have hr : (demoCalls (demoRegs 1 7 100 2 200 16) []).responseAddr = 200 := by decide
      rw [hr]
      interval_cases i <;> rfl)

/-- C2: error leaves control pending.  When the request copy does not fault and
dispatch yields a non-zero return code with no exception, `invoke` returns no
exception, control keeps its original value, responseCode holds that return
code, and responseLen and all guest memory are unchanged. -/
theorem C2_error_leaves_control_pending (V : vpc.Consts) (c c1 : calls) (req resp : Bytes)
    (code : Int) (hctl : c.control ≠ 0) (hreq : c.fetchReq = .ok req)
    (hcall : c.call V c.control c.serviceId req = ((resp, code, none), c1))
    (hcode : code ≠ 0) (hrange : inInt32 code) :
    (c.invoke V).1 = none ∧ (c.invoke V).2.control = c.control ∧
    (c.invoke V).2.responseCode = code ∧ (c.invoke V).2.responseLen = c.responseLen ∧
    (c.invoke V).2.mem = c.mem := by
  have hc1 : c1 = c := by
    have := call_unchanged V c c.control c.serviceId req (by rw [hcall]; exact Or.inl hcode)
    rw [hcall] at this
    exact this
  subst hc1
  rw [invoke_code V c1 c1 req resp code hctl hreq hcall hcode]
  refine ⟨rfl, ?_, respondCode_responseCode c1 code hrange, ?_, rfl⟩
  · exact respondCode_readByte c1 code callsControl (by simp [callsControl])
  · exact respondCode_readWord c1 code callsResponseLen (by simp [callsResponseLen])

/-- Witness of C2: service id 99 is not registered. -/
theorem C2_error_leaves_control_pending_witness :
    ((demoCalls (demoRegs 1 99 100 2 200 16) []).invoke demoConsts).1 = none ∧
    ((demoCalls (demoRegs 1 99 100 2 200 16) []).invoke demoConsts).2.control
      = (demoCalls (demoRegs 1 99 100 2 200 16) []).control ∧
    ((demoCalls (demoRegs 1 99 100 2 200 16) []).invoke demoConsts).2.responseCode = 2 ∧
    ((demoCalls (demoRegs 1 99 100 2 200 16) []).invoke demoConsts).2.responseLen
      = (demoCalls (demoRegs 1 99 100 2 200 16) []).responseLen ∧
    ((demoCalls (demoRegs 1 99 100 2 200 16) []).invoke demoConsts).2.mem
      = (demoCalls (demoRegs 1 99 100 2 200 16) []).mem :=
  C2_error_leaves_control_pending demoConsts (demoCalls (demoRegs 1 99 100 2 200 16) [])
    (demoCalls (demoRegs 1 99 100 2 200 16) []) (some [65, 66]) none 2
    (by decide) (by rfl) (by rfl) (by decide) (by decide)

/-- C3: buffer too small still reports the length.  When dispatch returns
`(resp, 0)` with `len(resp)` at most `vpc.MaxLen` and above the responseBufSize
register, `invoke` returns no exception, responseLen holds `len(resp)`,
responseCode holds `vpc.ErrSmallBuf`, control keeps its value and guest memory
is not written. -/
theorem C3_buffer_too_small (V : vpc.Consts) (c c1 : calls) (req resp : Bytes)
    (hV : V.MaxLen < 4294967296) (hE : inInt32 V.ErrSmallBuf)
    (hctl : c.control ≠ 0) (hreq : c.fetchReq = .ok req)
    (hcall : c.call V c.control c.serviceId req = ((resp, 0, none), c1))
    (hmax : resp.len ≤ V.MaxLen) (hbuf : resp.len > c.responseBufSize) :
    (c.invoke V).1 = none ∧ (c.invoke V).2.responseLen = resp.len ∧
    (c.invoke V).2.responseCode = V.ErrSmallBuf ∧ (c.invoke V).2.control = c.control ∧
    (c.invoke V).2.mem = c.mem := by
  have hfr := call_frame V c c.control c.serviceId req
  have hsz := call_readWord V c c.control c.serviceId req callsResponseSize
    (by simp [callsResponseSize])
  rw [hcall] at hfr hsz
  simp only at hfr hsz
  have hu : uint32 (resp.len : Int) = resp.len := by
    rw [uint32_natCast, Nat.mod_eq_of_lt (by omega)]
  rw [invoke_smallbuf V c c1 req resp hctl hreq hcall hmax
    (by rw [hu, hsz]; exact hbuf)]
  refine ⟨rfl, ?_, respondCode_responseCode _ _ hE, ?_, hfr.1⟩
  · simp only [calls.responseLen]
    rw [respondCode_readWord _ _ _ (by simp [callsResponseLen])]
    simp only
    rw [readWord_writeWord_eq, hu, Nat.mod_eq_of_lt (by omega)]
  · simp only [calls.control]
    rw [respondCode_readByte _ _ _ (by simp [callsControl])]
    simp only
    rw [readByte_writeWord _ _ _ _ (by simp [callsControl, callsResponseLen])]
    exact hfr.2.2.2.2 callsControl (by simp [callsControl])

/-- Witness of C3: a ten-byte payload with responseBufSize 4. -/
theorem C3_buffer_too_small_witness :
    ((demoCalls (demoRegs 1 8 100 2 200 4) []).invoke demoConsts).1 = none ∧
    ((demoCalls (demoRegs 1 8 100 2 200 4) []).invoke demoConsts).2.responseLen
      = Bytes.len (some (List.replicate 10 7)) ∧
    ((demoCalls (demoRegs 1 8 100 2 200 4) []).invoke demoConsts).2.responseCode
      = demoConsts.ErrSmallBuf ∧
    ((demoCalls (demoRegs 1 8 100 2 200 4) []).invoke demoConsts).2.control
      = (demoCalls (demoRegs 1 8 100 2 200 4) []).control ∧
    ((demoCalls (demoRegs 1 8 100 2 200 4) []).invoke demoConsts).2.mem
      = (demoCalls (demoRegs 1 8 100 2 200 4) []).mem :=
  C3_buffer_too_small demoConsts (demoCalls (demoRegs 1 8 100 2 200 4) [])
    (demoCalls (demoRegs 1 8 100 2 200 4) []) (some [65, 66]) (some (List.replicate 10 7))
    (by decide) (by decide) (by decide) (by rfl) (by rfl) (by decide) (by decide)

/-- C5: an empty-queue poll is a no-op retry.  With control = 1, serviceId = 0,
an empty queue and a request copy that does not fault, `invoke` returns
`errSleep` and leaves the whole state unchanged, and so does every repetition. -/
theorem C5_empty_poll_retry (V : vpc.Consts) (c : calls) (req : Bytes)
    (hctl : c.control = 1) (hs : c.serviceId = 0) (hq : c.queue = [])
    (hreq : c.fetchReq = .ok req) :
    c.invoke V = (some errSleep, c) ∧
    ∀ n : Nat, (calls.Tick V)^[n] c = c ∧
      calls.invoke V ((calls.Tick V)^[n] c) = (some errSleep, c) := by
  have h1 : c.invoke V = (some errSleep, c) := by
    have hcall : c.call V c.control c.serviceId req
        = ((none, V.ErrInternal, some errSleep), c) := by
      rw [hctl, hs]
      simp only [calls.call, if_true]
      exact callControl_poll_empty V c req hq
    exact invoke_call_excep V c c req none V.ErrInternal errSleep
      (by rw [hctl]; decide) hreq hcall
  refine ⟨h1, ?_⟩
  intro n
  have hn : (calls.Tick V)^[n] c = c := by
    induction n with
    | zero => rfl
    | succ n ih =>
      rw [Function.iterate_succ_apply', ih]
      simp only [calls.Tick, h1]
  rw [hn]
  exact ⟨rfl, h1⟩

/-- Witness of C5: a poll on the empty queue. -/
theorem C5_empty_poll_retry_witness :
    (demoCalls (demoRegs 1 0 100 2 200 16) []).invoke demoConsts
      = (some errSleep, demoCalls (demoRegs 1 0 100 2 200 16) []) ∧
    ∀ n : Nat, (calls.Tick demoConsts)^[n] (demoCalls (demoRegs 1 0 100 2 200 16) [])
        = demoCalls (demoRegs 1 0 100 2 200 16) [] ∧
      calls.invoke demoConsts
          ((calls.Tick demoConsts)^[n] (demoCalls (demoRegs 1 0 100 2 200 16) []))
        = (some errSleep, demoCalls (demoRegs 1 0 100 2 200 16) []) :=
  C5_empty_poll_retry demoConsts (demoCalls (demoRegs 1 0 100 2 200 16) [])
    (some [65, 66]) (by decide) (by decide) (by rfl) (by rfl)

theorem fetchReq_fault (c : calls) (k : Nat) (e : Excep) (hk : k < c.requestLen)
    (hf : c.mem.readFault ((c.requestAddr + k) % 4294967296) = some e)
    (hmin : ∀ j, j < k → c.mem.readFault ((c.requestAddr + j) % 4294967296) = none) :
    c.fetchReq = .error e := by
  have := copyReq_fault c.mem c.requestAddr e c.requestLen 0 k hk
    (by simpa [byteAddr] using hf)
    (fun j hj => by simpa [byteAddr] using hmin j hj)
  simp only [calls.requestAddr, calls.requestLen] at this
  simp only [calls.fetchReq, this]

/-- C6: fault abort on the request copy.  With control non-zero, if reading
request byte `k` faults and no earlier byte does, `invoke` returns that fault
and leaves the whole state unchanged, whatever services are registered (no
`Handle` result enters the outcome). -/
theorem C6_request_fault_abort (V : vpc.Consts) (c : calls) (k : Nat) (e : Excep)
    (hctl : c.control ≠ 0) (hk : k < c.requestLen)
    (hf : c.mem.readFault ((c.requestAddr + k) % 4294967296) = some e)
    (hmin : ∀ j, j < k → c.mem.readFault ((c.requestAddr + j) % 4294967296) = none) :
    c.invoke V = (some e, c) ∧
    ∀ svcs : Nat → Option vpc.Service,
      calls.invoke V { c with services := svcs } = (some e, { c with services := svcs }) :=
  ⟨invoke_fetch_fault V c e hctl (fetchReq_fault c k e hk hf hmin),
   fun svcs => invoke_fetch_fault V { c with services := svcs } e hctl
     (fetchReq_fault { c with services := svcs } k e hk hf hmin)⟩

/-- Witness of C6: a two-byte request at 4095, whose second byte is out of range. -/
theorem C6_request_fault_abort_witness :
    (demoCalls (demoRegs 1 7 4095 2 200 16) []).invoke demoConsts
      = (some (Excep.fault 4 4096), demoCalls (demoRegs 1 7 4095 2 200 16) []) ∧
    ∀ svcs : Nat → Option vpc.Service,
      calls.invoke demoConsts { demoCalls (demoRegs 1 7 4095 2 200 16) [] with services := svcs }
        = (some (Excep.fault 4 4096),
           { demoCalls (demoRegs 1 7 4095 2 200 16) [] with services := svcs }) :=
  C6_request_fault_abort demoConsts (demoCalls (demoRegs 1 7 4095 2 200 16) []) 1
    (Excep.fault 4 4096) (by decide) (by decide) (by rfl)
    (by intro j hj; interval_cases j; rfl)

/-- C7: idle no-op.  When the control byte is 0, `invoke` returns no exception
and leaves the whole state (registers, guest memory, registry, queue) unchanged. -/
theorem C7_idle_noop (V : vpc.Consts) (c : calls) (h : c.control = 0) :
    c.invoke V = (none, c) :=
  invoke_idle V c h

/-- Witness of C7: an idle block with an invalid requestAddr and a non-empty queue. -/
theorem C7_idle_noop_witness :
    (demoCalls (demoRegs 0 0 5000 3 200 16) [⟨5, some [65]⟩]).invoke demoConsts
      = (none, demoCalls (demoRegs 0 0 5000 3 200 16) [⟨5, some [65]⟩]) :=
  C7_idle_noop demoConsts (demoCalls (demoRegs 0 0 5000 3 200 16) [⟨5, some [65]⟩]) (by decide)

theorem storeResp_congr (c c' : calls) (a : Nat) (resp : Bytes) (h : c'.mem = c.mem) :
    c'.storeResp a resp = c.storeResp a resp := by
  cases resp with
  | none => simp [calls.storeResp, h]
  | some l => simp [calls.storeResp, h]

/-- C8: clear on success only.  For a pending state, control is 0 after `invoke`
exactly when `invoke` returned no exception, dispatch returned code 0, the
response fits `vpc.MaxLen` and the responseBufSize register and every response
byte was written without fault; then responseCode is 0; otherwise control
keeps its original value. -/
theorem C8_clear_on_success_only (V : vpc.Consts) (c : calls)
    (hV : V.MaxLen < 4294967296) (hctl : c.control ≠ 0) :
    ((c.invoke V).2.control = 0 ↔
      ((c.invoke V).1 = none ∧ ∃ req resp c1, c.fetchReq = .ok req ∧
        c.call V c.control c.serviceId req = ((resp, 0, none), c1) ∧
        resp.len ≤ V.MaxLen ∧ resp.len ≤ c.responseBufSize ∧
        ∀ i, i < resp.len → c.mem.writeFault ((c.responseAddr + i) % 4294967296) = none)) ∧
    ((c.invoke V).2.control = 0 → (c.invoke V).2.responseCode = 0) ∧
    ((c.invoke V).2.control ≠ 0 → (c.invoke V).2.control = c.control) := by
  cases hfr : c.fetchReq with
  | error e =>
    rw [invoke_fetch_fault V c e hctl hfr]
    refine ⟨⟨fun h => absurd h hctl, fun h => by simp at h⟩, fun h => absurd h hctl, fun _ => rfl⟩
  | ok req =>
    have hfrm := call_frame V c c.control c.serviceId req
    have hsz := call_readWord V c c.control c.serviceId req callsResponseSize
      (by simp [callsResponseSize])
    have had := call_readWord V c c.control c.serviceId req callsResponseAddr
      (by simp [callsResponseAddr])
    have hun := call_unchanged V c c.control c.serviceId req
    generalize hcl : c.call V c.control c.serviceId req = r at hfrm hsz had hun
    obtain ⟨⟨resp, code, ex⟩, c1⟩ := r
    simp only at hfrm hsz had hun
    have hc1ctl : c1.control = c.control := hfrm.2.2.2.2 callsControl (by simp [callsControl])
    cases ex with
    | some e =>
      rw [invoke_call_excep V c c1 req resp code e hctl hfr hcl]
      have hcc : c1 = c := hun (Or.inr (by simp))
      subst hcc
      refine ⟨⟨fun h => absurd h hctl, fun h => by simp at h⟩,
        fun h => absurd h hctl, fun _ => rfl⟩
    | none =>
      by_cases hcode : code = 0
      · subst hcode
        by_cases hlen : resp.len > V.MaxLen
        · rw [invoke_oversize V c c1 req resp hctl hfr hcl hlen]
          have hk : (c1.respondCode V.ErrInternal).control = c.control := by
            rw [← hc1ctl]
            exact respondCode_readByte c1 _ callsControl (by simp [callsControl])
          rw [hk]
          refine ⟨⟨fun h => absurd h hctl, ?_⟩, fun h => absurd h hctl, fun _ => rfl⟩
          rintro ⟨_, req', resp', c1', hq, hc', hm, _⟩
          cases hq
          rw [hcl] at hc'
          cases hc'
          omega
        · have hlen' : resp.len ≤ V.MaxLen := by omega
          have hu : uint32 (resp.len : Int) = resp.len := by
            rw [uint32_natCast, Nat.mod_eq_of_lt (by omega)]
          by_cases hbuf : uint32 (resp.len : Int) > c1.p.readWord callsResponseSize
          · rw [invoke_smallbuf V c c1 req resp hctl hfr hcl hlen' hbuf]
            have hk : (calls.respondCode
                { c1 with p := c1.p.writeWord callsResponseLen (uint32 resp.len) }
                V.ErrSmallBuf).control = c.control := by
              rw [← hc1ctl]
              simp only [calls.control]
              rw [respondCode_readByte _ _ _ (by simp [callsControl])]
              exact readByte_writeWord _ _ _ _ (by simp [callsControl, callsResponseLen])
            rw [hk]
            refine ⟨⟨fun h => absurd h hctl, ?_⟩, fun h => absurd h hctl, fun _ => rfl⟩
            rintro ⟨_, req', resp', c1', hq, hc', _, hb, _⟩
            cases hq
            rw [hcl] at hc'
            cases hc'
            rw [hu, hsz] at hbuf
            simp only [calls.responseBufSize] at hb
            omega
          · have hbuf' : uint32 (resp.len : Int) ≤ c1.p.readWord callsResponseSize := by omega
            have hst := invoke_store V c c1 req resp hctl hfr hcl hlen' hbuf'
            rw [storeResp_congr c _ _ _ (by exact hfrm.1), had] at hst
            have hiff := storeResp_none_iff c (c.p.readWord callsResponseAddr) resp
            generalize c.storeResp (c.p.readWord callsResponseAddr) resp = sr at hst hiff
            obtain ⟨ex, m⟩ := sr
            cases ex with
            | some e =>
              simp only at hst
              rw [hst]
              have hk : calls.control { c1 with
                  p := c1.p.writeWord callsResponseLen (uint32 resp.len), mem := m }
                  = c.control := by
                rw [← hc1ctl]
                exact readByte_writeWord _ _ _ _ (by simp [callsControl, callsResponseLen])
              rw [hk]
              refine ⟨⟨fun h => absurd h hctl, fun h => by simp at h⟩,
                fun h => absurd h hctl, fun _ => rfl⟩
            | none =>
              simp only at hst
              rw [hst]
              obtain ⟨h1, _, h3⟩ := success_regs c1.p (uint32 (resp.len : Int))
              have hk : calls.control { c1 with
                  p := ((c1.p.writeWord callsResponseLen (uint32 resp.len)).writeWord
                    callsResponseCode (uint32 0)).writeByte callsControl 0, mem := m } = 0 := h1
              refine ⟨⟨fun _ => ⟨rfl, req, resp, c1, rfl, hcl, hlen', ?_, ?_⟩, fun _ => hk⟩,
                fun _ => ?_, fun h => absurd hk h⟩
              · rw [hu, hsz] at hbuf'
                exact hbuf'
              · exact hiff.1 rfl
              · simp only [calls.responseCode, h3]
                rfl
      · rw [invoke_code V c c1 req resp code hctl hfr hcl hcode]
        have hk : (c1.respondCode code).control = c.control := by
          rw [← hc1ctl]
          exact respondCode_readByte c1 _ callsControl (by simp [callsControl])
        rw [hk]
        refine ⟨⟨fun h => absurd h hctl, ?_⟩, fun h => absurd h hctl, fun _ => rfl⟩
        rintro ⟨_, req', resp', c1', hq, hc', _⟩
        cases hq
        rw [hcl] at hc'
        cases hc'
        exact absurd rfl hcode

/-- Witness of C8: the echo round trip clears control, with responseCode 0. -/
theorem C8_clear_on_success_only_witness :
    (((demoCalls (demoRegs 1 7 100 2 200 16) []).invoke demoConsts).2.control = 0 ↔
      (((demoCalls (demoRegs 1 7 100 2 200 16) []).invoke demoConsts).1 = none ∧
        ∃ req resp c1, (demoCalls (demoRegs 1 7 100 2 200 16) []).fetchReq = .ok req ∧
        (demoCalls (demoRegs 1 7 100 2 200 16) []).call demoConsts
          (demoCalls (demoRegs 1 7 100 2 200 16) []).control
          (demoCalls (demoRegs 1 7 100 2 200 16) []).serviceId req = ((resp, 0, none), c1) ∧
        resp.len ≤ demoConsts.MaxLen ∧
        resp.len ≤ (demoCalls (demoRegs 1 7 100 2 200 16) []).responseBufSize ∧
        ∀ i, i < resp.len → (demoCalls (demoRegs 1 7 100 2 200 16) []).mem.writeFault
          (((demoCalls (demoRegs 1 7 100 2 200 16) []).responseAddr + i) % 4294967296)
            = none)) ∧
    (((demoCalls (demoRegs 1 7 100 2 200 16) []).invoke demoConsts).2.control = 0 →
      ((demoCalls (demoRegs 1 7 100 2 200 16) []).invoke demoConsts).2.responseCode = 0) ∧
    (((demoCalls (demoRegs 1 7 100 2 200 16) []).invoke demoConsts).2.control ≠ 0 →
      ((demoCalls (demoRegs 1 7 100 2 200 16) []).invoke demoConsts).2.control
        = (demoCalls (demoRegs 1 7 100 2 200 16) []).control) :=
  C8_clear_on_success_only demoConsts (demoCalls (demoRegs 1 7 100 2 200 16) [])
    (by decide) (by decide)

/-- The queue is never modified by `invoke`. -/
theorem invoke_queue (V : vpc.Consts) (c : calls) : (c.invoke V).2.queue = c.queue := by
  by_cases hctl : c.control = 0
  · rw [invoke_idle V c hctl]
  cases hfr : c.fetchReq with
  | error e => rw [invoke_fetch_fault V c e hctl hfr]
  | ok req =>
    have hfrm := (call_frame V c c.control c.serviceId req).2.1
    generalize hcl : c.call V c.control c.serviceId req = r at hfrm
    obtain ⟨⟨resp, code, ex⟩, c1⟩ := r
    simp only at hfrm
    cases ex with
    | some e => rw [invoke_call_excep V c c1 req resp code e hctl hfr hcl]; exact hfrm
    | none =>
      by_cases hcode : code = 0
      · subst hcode
        by_cases hlen : resp.len > V.MaxLen
        · rw [invoke_oversize V c c1 req resp hctl hfr hcl hlen]; exact hfrm
        · by_cases hbuf : uint32 (resp.len : Int) > c1.p.readWord callsResponseSize
          · rw [invoke_smallbuf V c c1 req resp hctl hfr hcl (by omega) hbuf]; exact hfrm
          · rw [invoke_store V c c1 req resp hctl hfr hcl (by omega) (by omega)]
            split <;> exact hfrm
      · rw [invoke_code V c c1 req resp code hctl hfr hcl hcode]; exact hfrm

/-- C4 (the code at the failing input): with the queue holding A = (5, "A")
then B = (6, "B"), a successful poll delivers A but leaves the queue as it
was, and after the guest re-arms the poll the second poll delivers A again,
not B. -/
theorem C4_poll_does_not_consume :
    ((demoCalls (demoRegs 1 0 0 0 200 16) [⟨5, some [65]⟩, ⟨6, some [66]⟩]).invoke
      demoConsts).1 = none ∧
    ((demoCalls (demoRegs 1 0 0 0 200 16) [⟨5, some [65]⟩, ⟨6, some [66]⟩]).invoke
      demoConsts).2.control = 0 ∧
    ((demoCalls (demoRegs 1 0 0 0 200 16) [⟨5, some [65]⟩, ⟨6, some [66]⟩]).invoke
      demoConsts).2.serviceId = 5 ∧
    ((demoCalls (demoRegs 1 0 0 0 200 16) [⟨5, some [65]⟩, ⟨6, some [66]⟩]).invoke
      demoConsts).2.mem.data 200 = 65 ∧
    ((demoCalls (demoRegs 1 0 0 0 200 16) [⟨5, some [65]⟩, ⟨6, some [66]⟩]).invoke
      demoConsts).2.queue = [⟨5, some [65]⟩, ⟨6, some [66]⟩] ∧
    ((rearmPoll ((demoCalls (demoRegs 1 0 0 0 200 16) [⟨5, some [65]⟩, ⟨6, some [66]⟩]).invoke
      demoConsts).2).invoke demoConsts).1 = none ∧
    ((rearmPoll ((demoCalls (demoRegs 1 0 0 0 200 16) [⟨5, some [65]⟩, ⟨6, some [66]⟩]).invoke
      demoConsts).2).invoke demoConsts).2.control = 0 ∧
    ((rearmPoll ((demoCalls (demoRegs 1 0 0 0 200 16) [⟨5, some [65]⟩, ⟨6, some [66]⟩]).invoke
      demoConsts).2).invoke demoConsts).2.serviceId = 5 ∧
    ((rearmPoll ((demoCalls (demoRegs 1 0 0 0 200 16) [⟨5, some [65]⟩, ⟨6, some [66]⟩]).invoke
      demoConsts).2).invoke demoConsts).2.mem.data 200 = 65 ∧
    ((rearmPoll ((demoCalls (demoRegs 1 0 0 0 200 16) [⟨5, some [65]⟩, ⟨6, some [66]⟩]).invoke
      demoConsts).2).invoke demoConsts).2.queue = [⟨5, some [65]⟩, ⟨6, some [66]⟩] := by
  refine ⟨by decide, by decide, by decide, by rfl, by decide, by decide, by decide, by decide,
    by rfl, by decide⟩

/-- C9 (counterexample): a pending poll (control = 1, serviceId = 0) with the
queue holding m = (5, "AB"), the payload fitting `MaxLen` and responseBufSize and
no write to the response buffer faulting, but with a request copy that faults:
`invoke` returns the fault, control stays 1, responseLen stays 0 and the
response buffer is not written. -/
theorem C9_counterexample :
    (demoCalls (demoRegs 1 0 5000 1 200 16) [⟨5, some [65, 66]⟩]).serviceId = 0 ∧
    (demoCalls (demoRegs 1 0 5000 1 200 16) [⟨5, some [65, 66]⟩]).queue
      = [⟨5, some [65, 66]⟩] ∧
    Bytes.len (some [65, 66]) ≤ demoConsts.MaxLen ∧
    Bytes.len (some [65, 66])
      ≤ (demoCalls (demoRegs 1 0 5000 1 200 16) [⟨5, some [65, 66]⟩]).responseBufSize ∧
    (∀ a, a < 4096 →
      (demoCalls (demoRegs 1 0 5000 1 200 16) [⟨5, some [65, 66]⟩]).mem.writeFault a = none) ∧
    (demoCalls (demoRegs 1 0 5000 1 200 16) [⟨5, some [65, 66]⟩]).responseAddr = 200 ∧
    ((demoCalls (demoRegs 1 0 5000 1 200 16) [⟨5, some [65, 66]⟩]).invoke demoConsts).1
      = some (Excep.fault 4 5000) ∧
    ((demoCalls (demoRegs 1 0 5000 1 200 16) [⟨5, some [65, 66]⟩]).invoke demoConsts).2.control
      ≠ 0 ∧
    ((demoCalls (demoRegs 1 0 5000 1 200 16) [⟨5, some [65, 66]⟩]).invoke
      demoConsts).2.responseLen ≠ Bytes.len (some [65, 66]) ∧
    ((demoCalls (demoRegs 1 0 5000 1 200 16) [⟨5, some [65, 66]⟩]).invoke
      demoConsts).2.mem.data 200 ≠ 65 := by
  refine ⟨by decide, by rfl, by decide, by decide, ?_, by decide, by decide, by decide,
    by decide, by decide⟩
  intro a ha
  simp [demoCalls, demoMem, ha]

/-- A pending poll that reaches dispatch with a front message that fits: the
message is delivered and control is cleared. -/
theorem poll_front_delivered (V : vpc.Consts) (c : calls) (m : callsMessage)
    (rest : List callsMessage) (req0 : Bytes)
    (hq : c.queue = m :: rest) (hm : m.service < 4294967296)
    (hctl : c.control = 1) (hs : c.serviceId = 0) (hreq : c.fetchReq = .ok req0)
    (hmax : m.p.len ≤ V.MaxLen) (hbuf : m.p.len ≤ c.responseBufSize)
    (hw : ∀ i, i < m.p.len → c.mem.writeFault ((c.responseAddr + i) % 4294967296) = none) :
    (∀ req, (c.callControl V 1 req).1 = (m.p, 0, none) ∧
      (c.callControl V 1 req).2.serviceId = m.service) ∧
    (c.invoke V).1 = none ∧
    (∀ i (hi : i < m.p.toList.length),
      (c.invoke V).2.mem.data ((c.responseAddr + i) % 4294967296) = m.p.toList[i]) ∧
    (c.invoke V).2.responseLen = m.p.len ∧ (c.invoke V).2.responseCode = 0 ∧
    (c.invoke V).2.control = 0 := by
  have hlt : m.p.len < 4294967296 :=
    Nat.lt_of_le_of_lt hbuf (readWord_lt c.p callsResponseSize)
  have hu : uint32 (m.p.len : Int) = m.p.len := by
    rw [uint32_natCast, Nat.mod_eq_of_lt hlt]
  have hcc : ∀ req, c.callControl V 1 req
      = ((m.p, 0, none), { c with p := c.p.writeWord callsService m.service }) :=
    fun req => callControl_poll_front V c req m rest hq
  have hcall : c.call V c.control c.serviceId req0
      = ((m.p, 0, none), { c with p := c.p.writeWord callsService m.service }) := by
    rw [hctl, hs]
    simp only [calls.call, if_true]
    exact hcc req0
  have hsz : (c.p.writeWord callsService m.service).readWord callsResponseSize
      = c.responseBufSize :=
    readWord_writeWord_ne _ _ _ _ (by simp [callsService, callsResponseSize])
  have had : (c.p.writeWord callsService m.service).readWord callsResponseAddr
      = c.responseAddr :=
    readWord_writeWord_ne _ _ _ _ (by simp [callsService, callsResponseAddr])
  have hst := invoke_store V c _ req0 m.p (by rw [hctl]; decide) hreq hcall hmax
    (by rw [hu]; simp only; rw [hsz]; exact hbuf)
  simp only at hst
  have hsr := storeResp_congr c
    ⟨(c.p.writeWord callsService m.service).writeWord callsResponseLen (uint32 (m.p.len : Int)),
      c.mem, c.services, c.enabled, c.queue⟩ c.responseAddr m.p rfl
  rw [had, hsr] at hst
  have hok : (c.storeResp c.responseAddr m.p).1 = none :=
    (storeResp_none_iff c c.responseAddr m.p).2 hw
  have hdata := storeResp_data c c.responseAddr m.p hok (by omega)
  generalize c.storeResp c.responseAddr m.p = r at hst hok hdata
  obtain ⟨e, mm⟩ := r
  simp only at hok
  subst hok
  simp only at hst
  rw [hst]
  obtain ⟨h1, h2, h3⟩ :=
    success_regs (c.p.writeWord callsService m.service) (uint32 (m.p.len : Int))
  refine ⟨fun req => ?_, rfl, hdata, ?_, ?_, h1⟩
  · rw [hcc req]
    refine ⟨rfl, ?_⟩
    simp only [calls.serviceId, readWord_writeWord_eq]
    exact Nat.mod_eq_of_lt hm
  · simp only [calls.responseLen]
    rw [h2, hu, Nat.mod_eq_of_lt hlt]
  · simp only [calls.responseCode, h3]
    rfl

/-- C9 (amended): when the oldest queued message is `m`, `callControl(1, req)`
writes `m`'s origin id into the serviceId register and returns
`(m.payload, 0, no exception)` for every `req`, whatever the rest of the state;
and for a pending poll (control = 1, serviceId = 0) whose request copy does not
fault, with the payload fitting `MaxLen` and responseBufSize and no write
faulting, `invoke` returns no exception, guest memory at responseAddr holds the
payload, responseLen is its length, responseCode is 0 and control is 0. -/
theorem C9_poll_delivers_front (V : vpc.Consts) (c : calls) (m : callsMessage)
    (rest : List callsMessage) (hq : c.queue = m :: rest) (hm : m.service < 4294967296) :
    (∀ req, (c.callControl V 1 req).1 = (m.p, 0, none) ∧
      (c.callControl V 1 req).2.serviceId = m.service) ∧
    (c.control = 1 → c.serviceId = 0 → (∃ req0, c.fetchReq = .ok req0) →
      m.p.len ≤ V.MaxLen → m.p.len ≤ c.responseBufSize →
      (∀ i, i < m.p.len → c.mem.writeFault ((c.responseAddr + i) % 4294967296) = none) →
      (c.invoke V).1 = none ∧
      (∀ i (hi : i < m.p.toList.length),
        (c.invoke V).2.mem.data ((c.responseAddr + i) % 4294967296) = m.p.toList[i]) ∧
      (c.invoke V).2.responseLen = m.p.len ∧ (c.invoke V).2.responseCode = 0 ∧
      (c.invoke V).2.control = 0) := by
  constructor
  · intro req
    rw [callControl_poll_front V c req m rest hq]
    refine ⟨rfl, ?_⟩
    simp only [calls.serviceId, readWord_writeWord_eq]
    exact Nat.mod_eq_of_lt hm
  · rintro hctl hs ⟨req0, hreq⟩ hmax hbuf hw
    exact (poll_front_delivered V c m rest req0 hq hm hctl hs hreq hmax hbuf hw).2

/-- Witness of C9: a poll with the queue holding (5, "AB"). -/
theorem C9_poll_delivers_front_witness :
    (∀ req, ((demoCalls (demoRegs 1 0 100 2 200 16) [⟨5, some [65, 66]⟩]).callControl
        demoConsts 1 req).1 = (some [65, 66], 0, none) ∧
      ((demoCalls (demoRegs 1 0 100 2 200 16) [⟨5, some [65, 66]⟩]).callControl
        demoConsts 1 req).2.serviceId = 5) ∧
    ((demoCalls (demoRegs 1 0 100 2 200 16) [⟨5, some [65, 66]⟩]).invoke demoConsts).1
      = none ∧
    (∀ i (hi : i < (Bytes.toList (some [65, 66])).length),
      ((demoCalls (demoRegs 1 0 100 2 200 16) [⟨5, some [65, 66]⟩]).invoke
        demoConsts).2.mem.data
        (((demoCalls (demoRegs 1 0 100 2 200 16) [⟨5, some [65, 66]⟩]).responseAddr + i)
          % 4294967296) = (Bytes.toList (some [65, 66]))[i]) ∧
    ((demoCalls (demoRegs 1 0 100 2 200 16) [⟨5, some [65, 66]⟩]).invoke
      demoConsts).2.responseLen = Bytes.len (some [65, 66]) ∧
    ((demoCalls (demoRegs 1 0 100 2 200 16) [⟨5, some [65, 66]⟩]).invoke
      demoConsts).2.responseCode = 0 ∧
    ((demoCalls (demoRegs 1 0 100 2 200 16) [⟨5, some [65, 66]⟩]).invoke
      demoConsts).2.control = 0 :=
  ⟨(C9_poll_delivers_front demoConsts
      (demoCalls (demoRegs 1 0 100 2 200 16) [⟨5, some [65, 66]⟩])
      ⟨5, some [65, 66]⟩ [] (by rfl) (by decide)).1,
    (C9_poll_delivers_front demoConsts
      (demoCalls (demoRegs 1 0 100 2 200 16) [⟨5, some [65, 66]⟩])
      ⟨5, some [65, 66]⟩ [] (by rfl) (by decide)).2 (by decide) (by decide)
      ⟨some [65, 66], by rfl⟩ (by decide) (by decide) (by
        intro i hi
        have h2 : i < 2 := hi
        have hr : (demoCalls (demoRegs 1 0 100 2 200 16) [⟨5, some [65, 66]⟩]).responseAddr
            = 200 := by decide
        rw [hr]
        interval_cases i <;> rfl)⟩

/-- C10 (counterexample): control = 2 with serviceId = 0, but a request copy
that faults: `invoke` returns the fault and responseCode does not hold
`vpc.ErrInvalidArg`. -/
theorem C10_counterexample :
    (demoCalls (demoRegs 2 0 5000 1 200 16) []).control ≠ 0 ∧
    (demoCalls (demoRegs 2 0 5000 1 200 16) []).control ≠ 1 ∧
    (demoCalls (demoRegs 2 0 5000 1 200 16) []).serviceId = 0 ∧
    ((demoCalls (demoRegs 2 0 5000 1 200 16) []).invoke demoConsts).1
      = some (Excep.fault 4 5000) ∧
    ((demoCalls (demoRegs 2 0 5000 1 200 16) []).invoke demoConsts).2.responseCode
      ≠ demoConsts.ErrInvalidArg := by
  refine ⟨by decide, by decide, by decide, by decide, by decide⟩

/-- A pending control-channel request with an unrecognized code that reaches
dispatch: only responseCode is written. -/
theorem unrecognized_control_dispatched (V : vpc.Consts) (c : calls) (req0 : Bytes)
    (hE0 : V.ErrInvalidArg ≠ 0) (hE : inInt32 V.ErrInvalidArg)
    (h0 : c.control ≠ 0) (h1 : c.control ≠ 1) (hs : c.serviceId = 0)
    (hreq : c.fetchReq = .ok req0) :
    (∀ req, c.callControl V c.control req = ((none, V.ErrInvalidArg, none), c)) ∧
    (c.invoke V).1 = none ∧
    (c.invoke V).2.responseCode = V.ErrInvalidArg ∧
    (∀ off, off < callsResponseCode ∨ callsResponseCode + 4 ≤ off →
      (c.invoke V).2.p.readByte off = c.p.readByte off) ∧
    (c.invoke V).2.control = c.control ∧ (c.invoke V).2.serviceId = c.serviceId ∧
    (c.invoke V).2.requestAddr = c.requestAddr ∧ (c.invoke V).2.requestLen = c.requestLen ∧
    (c.invoke V).2.responseAddr = c.responseAddr ∧
    (c.invoke V).2.responseBufSize = c.responseBufSize ∧
    (c.invoke V).2.responseLen = c.responseLen ∧
    (c.invoke V).2.mem = c.mem ∧ (c.invoke V).2.queue = c.queue := by
  have hcc : ∀ req, c.callControl V c.control req = ((none, V.ErrInvalidArg, none), c) :=
    fun req => callControl_other V c c.control req h1
  have hcall : c.call V c.control c.serviceId req0 = ((none, V.ErrInvalidArg, none), c) := by
    rw [hs]
    simp only [calls.call, if_true]
    exact hcc req0
  rw [invoke_code V c c req0 none V.ErrInvalidArg h0 hreq hcall hE0]
  refine ⟨hcc, rfl, respondCode_responseCode c _ hE, ?_, ?_, ?_, ?_, ?_, ?_, ?_, ?_, rfl, rfl⟩
  · intro off hoff
    exact respondCode_readByte c _ off (by simp only [callsResponseCode] at hoff; omega)
  · exact respondCode_readByte c _ callsControl (by simp [callsControl])
  · exact respondCode_readWord c _ callsService (by simp [callsService])
  · exact respondCode_readWord c _ callsRequestAddr (by simp [callsRequestAddr])
  · exact respondCode_readWord c _ callsRequestLen (by simp [callsRequestLen])
  · exact respondCode_readWord c _ callsResponseAddr (by simp [callsResponseAddr])
  · exact respondCode_readWord c _ callsResponseSize (by simp [callsResponseSize])
  · exact respondCode_readWord c _ callsResponseLen (by simp [callsResponseLen])

/-- C10 (amended): for every control byte outside {0, 1}, whatever the queue and
the rest of the state hold, `callControl` returns
`(nil, vpc.ErrInvalidArg, no exception)` and changes nothing; and with
serviceId = 0 and a request copy that does not fault, `invoke` returns no
exception and changes nothing but the responseCode register, which holds
`vpc.ErrInvalidArg` (a non-zero `int32`): every other byte of the block, guest
memory and the queue are unchanged. -/
theorem C10_unrecognized_control (V : vpc.Consts) (c : calls) :
    (∀ (ctrl : Byte) (req : Bytes), ctrl ≠ 0 → ctrl ≠ 1 →
      c.callControl V ctrl req = ((none, V.ErrInvalidArg, none), c)) ∧
    (c.control ≠ 0 → c.control ≠ 1 → c.serviceId = 0 →
      (∃ req0, c.fetchReq = .ok req0) → V.ErrInvalidArg ≠ 0 → inInt32 V.ErrInvalidArg →
      (c.invoke V).1 = none ∧
      (c.invoke V).2.responseCode = V.ErrInvalidArg ∧
      (∀ off, off < callsResponseCode ∨ callsResponseCode + 4 ≤ off →
        (c.invoke V).2.p.readByte off = c.p.readByte off) ∧
      (c.invoke V).2.control = c.control ∧ (c.invoke V).2.serviceId = c.serviceId ∧
      (c.invoke V).2.requestAddr = c.requestAddr ∧
      (c.invoke V).2.requestLen = c.requestLen ∧
      (c.invoke V).2.responseAddr = c.responseAddr ∧
      (c.invoke V).2.responseBufSize = c.responseBufSize ∧
      (c.invoke V).2.responseLen = c.responseLen ∧
      (c.invoke V).2.mem = c.mem ∧ (c.invoke V).2.queue = c.queue) := by
  constructor
  · intro ctrl req _ h1
    exact callControl_other V c ctrl req h1
  · rintro h0 h1 hs ⟨req0, hreq⟩ hE0 hE
    exact (unrecognized_control_dispatched V c req0 hE0 hE h0 h1 hs hreq).2

/-- Witness of C10: the reserved code 2 with a non-empty queue. -/
theorem C10_unrecognized_control_witness :
    (∀ (ctrl : Byte) (req : Bytes), ctrl ≠ 0 → ctrl ≠ 1 →
      (demoCalls (demoRegs 2 0 100 2 200 16) [⟨5, some [65]⟩]).callControl demoConsts ctrl req
        = ((none, demoConsts.ErrInvalidArg, none),
          demoCalls (demoRegs 2 0 100 2 200 16) [⟨5, some [65]⟩])) ∧
    (demoCalls (demoRegs 2 0 100 2 200 16) [⟨5, some [65]⟩]).control ≠ 0 ∧
    (demoCalls (demoRegs 2 0 100 2 200 16) [⟨5, some [65]⟩]).control ≠ 1 ∧
    ((demoCalls (demoRegs 2 0 100 2 200 16) [⟨5, some [65]⟩]).invoke demoConsts).1 = none ∧
    ((demoCalls (demoRegs 2 0 100 2 200 16) [⟨5, some [65]⟩]).invoke demoConsts).2.responseCode
      = demoConsts.ErrInvalidArg ∧
    ((demoCalls (demoRegs 2 0 100 2 200 16) [⟨5, some [65]⟩]).invoke demoConsts).2.control
      = (demoCalls (demoRegs 2 0 100 2 200 16) [⟨5, some [65]⟩]).control ∧
    ((demoCalls (demoRegs 2 0 100 2 200 16) [⟨5, some [65]⟩]).invoke demoConsts).2.queue
      = (demoCalls (demoRegs 2 0 100 2 200 16) [⟨5, some [65]⟩]).queue :=
  have h := (C10_unrecognized_control demoConsts
    (demoCalls (demoRegs 2 0 100 2 200 16) [⟨5, some [65]⟩])).2
    (by decide) (by decide) (by decide) ⟨some [65, 66], by rfl⟩ (by decide) (by decide)
  ⟨(C10_unrecognized_control demoConsts
      (demoCalls (demoRegs 2 0 100 2 200 16) [⟨5, some [65]⟩])).1,
    by decide, by decide, h.1, h.2.1, h.2.2.2.1, h.2.2.2.2.2.2.2.2.2.2.2⟩

/-- C11: service dispatch.  For a non-zero service id, `call` returns
`(nil, vpc.ErrNotFound, no exception)` when the id is not registered and
`(resp, ret, no exception)` with `(resp, ret) = Handle(req)` of the registered
service when it is; the control byte does not matter, no exception is ever
returned and the gate is left unchanged. -/
theorem C11_service_dispatch (V : vpc.Consts) (c : calls) (s : Nat) (req : Bytes)
    (hs : s ≠ 0) :
    (c.services s = none →
      ∀ ctrl, c.call V ctrl s req = ((none, V.ErrNotFound, none), c)) ∧
    (∀ svc, c.services s = some svc →
      ∀ ctrl, c.call V ctrl s req = (((svc.Handle req).1, (svc.Handle req).2, none), c)) ∧
    (∀ ctrl ctrl2, c.call V ctrl s req = c.call V ctrl2 s req) ∧
    (∀ ctrl, (c.call V ctrl s req).1.2.2 = none) := by
  refine ⟨?_, ?_, ?_, ?_⟩
  · intro h ctrl
    simp only [calls.call, if_neg hs, h]
  · intro svc h ctrl
    simp only [calls.call, if_neg hs, h]
  · intro ctrl ctrl2
    simp only [calls.call, if_neg hs]
  · intro ctrl
    simp only [calls.call, if_neg hs]
    cases c.services s <;> rfl

/-- Witness of C11: id 99 is not registered, id 7 is the echo service. -/
theorem C11_service_dispatch_witness :
    (((demoCalls (demoRegs 1 99 100 2 200 16) []).services 99 = none →
      ∀ ctrl, (demoCalls (demoRegs 1 99 100 2 200 16) []).call demoConsts ctrl 99 (some [65])
        = ((none, demoConsts.ErrNotFound, none), demoCalls (demoRegs 1 99 100 2 200 16) [])) ∧
    (∀ svc, (demoCalls (demoRegs 1 99 100 2 200 16) []).services 99 = some svc →
      ∀ ctrl, (demoCalls (demoRegs 1 99 100 2 200 16) []).call demoConsts ctrl 99 (some [65])
        = (((svc.Handle (some [65])).1, (svc.Handle (some [65])).2, none),
          demoCalls (demoRegs 1 99 100 2 200 16) [])) ∧
    (∀ ctrl ctrl2, (demoCalls (demoRegs 1 99 100 2 200 16) []).call demoConsts ctrl 99
        (some [65])
      = (demoCalls (demoRegs 1 99 100 2 200 16) []).call demoConsts ctrl2 99 (some [65])) ∧
    (∀ ctrl, ((demoCalls (demoRegs 1 99 100 2 200 16) []).call demoConsts ctrl 99
        (some [65])).1.2.2 = none)) ∧
    (demoCalls (demoRegs 1 7 100 2 200 16) []).call demoConsts 1 7 (some [65])
      = ((some [65], 0, none), demoCalls (demoRegs 1 7 100 2 200 16) []) :=
  ⟨C11_service_dispatch demoConsts (demoCalls (demoRegs 1 99 100 2 200 16) []) 99 (some [65])
      (by decide),
    (C11_service_dispatch demoConsts (demoCalls (demoRegs 1 7 100 2 200 16) []) 7 (some [65])
      (by decide)).2.1 echo (by rfl) 1⟩

/-- C12: oversized response.  When dispatch returns `(resp, 0)` with `len(resp)`
above `vpc.MaxLen`, `invoke` returns no exception, responseCode holds
`vpc.ErrInternal`, responseLen keeps its previous value, control keeps its value
and guest memory is not written. -/
theorem C12_oversized_response (V : vpc.Consts) (c c1 : calls) (req resp : Bytes)
    (hE : inInt32 V.ErrInternal)
    (hctl : c.control ≠ 0) (hreq : c.fetchReq = .ok req)
    (hcall : c.call V c.control c.serviceId req = ((resp, 0, none), c1))
    (hlen : resp.len > V.MaxLen) :
    (c.invoke V).1 = none ∧ (c.invoke V).2.responseCode = V.ErrInternal ∧
    (c.invoke V).2.responseLen = c.responseLen ∧ (c.invoke V).2.control = c.control ∧
    (c.invoke V).2.mem = c.mem := by
  have hfr := call_frame V c c.control c.serviceId req
  have hrl := call_readWord V c c.control c.serviceId req callsResponseLen
    (by simp [callsResponseLen])
  rw [hcall] at hfr hrl
  simp only at hfr hrl
  rw [invoke_oversize V c c1 req resp hctl hreq hcall hlen]
  refine ⟨rfl, respondCode_responseCode _ _ hE, ?_, ?_, hfr.1⟩
  · simp only [calls.responseLen]
    rw [respondCode_readWord _ _ _ (by simp [callsResponseLen])]
    exact hrl
  · simp only [calls.control]
    rw [respondCode_readByte _ _ _ (by simp [callsControl])]
    exact hfr.2.2.2.2 callsControl (by simp [callsControl])

/-- Witness of C12: the ten-byte service with a maximum length of 5. -/
theorem C12_oversized_response_witness :
    ((demoCalls (demoRegs 1 8 100 2 200 16) []).invoke
      { demoConsts with MaxLen := 5 }).1 = none ∧
    ((demoCalls (demoRegs 1 8 100 2 200 16) []).invoke
      { demoConsts with MaxLen := 5 }).2.responseCode = 3 ∧
    ((demoCalls (demoRegs 1 8 100 2 200 16) []).invoke
      { demoConsts with MaxLen := 5 }).2.responseLen
      = (demoCalls (demoRegs 1 8 100 2 200 16) []).responseLen ∧
    ((demoCalls (demoRegs 1 8 100 2 200 16) []).invoke
      { demoConsts with MaxLen := 5 }).2.control
      = (demoCalls (demoRegs 1 8 100 2 200 16) []).control ∧
    ((demoCalls (demoRegs 1 8 100 2 200 16) []).invoke
      { demoConsts with MaxLen := 5 }).2.mem = (demoCalls (demoRegs 1 8 100 2 200 16) []).mem :=
  C12_oversized_response { demoConsts with MaxLen := 5 }
    (demoCalls (demoRegs 1 8 100 2 200 16) []) (demoCalls (demoRegs 1 8 100 2 200 16) [])
    (some [65, 66]) (some (List.replicate 10 7)) (by decide) (by decide) (by rfl) (by rfl)
    (by decide)

/-- C13: registration.  `register(0, s)` panics and leaves the gate unchanged;
for a non-zero id `register(id, s)` does not panic, afterwards the lookup of
`id` yields `s`, and every other id is mapped as before. -/
theorem C13_register (c : calls) (s : vpc.Service) :
    c.register 0 s = (true, c) ∧
    ∀ id, id ≠ 0 →
      (c.register id s).1 = false ∧ (c.register id s).2.services id = some s ∧
      (∀ id2, id2 ≠ id → (c.register id s).2.services id2 = c.services id2) ∧
      (c.register id s).2.p = c.p ∧ (c.register id s).2.mem = c.mem ∧
      (c.register id s).2.queue = c.queue := by
  refine ⟨by simp [calls.register], ?_⟩
  intro id hid
  have h : c.register id s
      = (false, { c with services := Function.update c.services id (some s) }) := by
    simp only [calls.register, if_neg hid]
  rw [h]
  refine ⟨rfl, Function.update_same _ _ _, ?_, rfl, rfl, rfl⟩
  intro id2 h2
  exact Function.update_noteq h2 _ _

/-- Witness of C13: registering the echo service under 0 and under 9. -/
theorem C13_register_witness :
    (demoCalls (demoRegs 0 0 0 0 0 0) []).register 0 echo
      = (true, demoCalls (demoRegs 0 0 0 0 0 0) []) ∧
    ((demoCalls (demoRegs 0 0 0 0 0 0) []).register 9 echo).1 = false ∧
    ((demoCalls (demoRegs 0 0 0 0 0 0) []).register 9 echo).2.services 9 = some echo ∧
    (∀ id2, id2 ≠ 9 → ((demoCalls (demoRegs 0 0 0 0 0 0) []).register 9 echo).2.services id2
      = (demoCalls (demoRegs 0 0 0 0 0 0) []).services id2) :=
  ⟨(C13_register (demoCalls (demoRegs 0 0 0 0 0 0) []) echo).1,
    ((C13_register (demoCalls (demoRegs 0 0 0 0 0 0) []) echo).2 9 (by decide)).1,
    ((C13_register (demoCalls (demoRegs 0 0 0 0 0 0) []) echo).2 9 (by decide)).2.1,
    ((C13_register (demoCalls (demoRegs 0 0 0 0 0 0) []) echo).2 9 (by decide)).2.2.1⟩

/-- C14 (the code at the failing input): for a pending call whose request copy
faults, and for a poll on the empty queue, `invoke` returns the fault,
respectively `errSleep`, with the gate unchanged; `Tick` returns that gate and
nothing else, so its caller receives no exception. -/
theorem C14_tick_drops_fault :
    ((demoCalls (demoRegs 1 7 5000 1 200 16) []).invoke demoConsts).1
      = some (Excep.fault 4 5000) ∧
    calls.Tick demoConsts (demoCalls (demoRegs 1 7 5000 1 200 16) [])
      = ((demoCalls (demoRegs 1 7 5000 1 200 16) []).invoke demoConsts).2 ∧
    (demoCalls (demoRegs 1 7 5000 1 200 16) []).TickExcep demoConsts = none ∧
    (demoCalls (demoRegs 1 7 5000 1 200 16) []).TickExcep demoConsts
      ≠ ((demoCalls (demoRegs 1 7 5000 1 200 16) []).invoke demoConsts).1 ∧
    ((demoCalls (demoRegs 1 0 100 2 200 16) []).invoke demoConsts).1 = some errSleep ∧
    calls.Tick demoConsts (demoCalls (demoRegs 1 0 100 2 200 16) [])
      = ((demoCalls (demoRegs 1 0 100 2 200 16) []).invoke demoConsts).2 ∧
    (demoCalls (demoRegs 1 0 100 2 200 16) []).TickExcep demoConsts = none ∧
    (demoCalls (demoRegs 1 0 100 2 200 16) []).TickExcep demoConsts
      ≠ ((demoCalls (demoRegs 1 0 100 2 200 16) []).invoke demoConsts).1 := by
  refine ⟨by decide, rfl, rfl, by decide, by decide, rfl, rfl, by decide⟩

theorem writeByte_faults (m : phyMemory) (x : Nat) (b : Byte) :
    (m.WriteByte x b).2.writeFault = m.writeFault := by
  simp only [phyMemory.WriteByte]
  cases m.writeFault x <;> rfl

theorem writeResp_fault (a : Nat) (e : Excep) (l : List Byte) :
    ∀ (m : phyMemory) (i k : Nat), k < l.length →
      m.writeFault (byteAddr a (i + k)) = some e →
      (∀ j, j < k → m.writeFault (byteAddr a (i + j)) = none) →
      i + l.length ≤ 4294967296 →
      (writeResp a m i l).1 = some e ∧
      (∀ j, j < k → ∀ (hl : j < l.length),
        (writeResp a m i l).2.data (byteAddr a (i + j)) = l[j]) ∧
      (∀ x, (∀ j, j < k → x ≠ byteAddr a (i + j)) →
        (writeResp a m i l).2.data x = m.data x) := by
  induction l with
  | nil => intro m i k hk; simp at hk
  | cons b bs ih =>
    intro m i k hk hf hmin hlen
    simp only [List.length_cons] at hk hlen
    cases k with
    | zero =>
      simp only [Nat.add_zero, byteAddr] at hf
      have hw : writeResp a m i (b :: bs) = (some e, m) := by
        simp only [writeResp, phyMemory.WriteByte, hf]
      rw [hw]
      refine ⟨rfl, ?_, fun _ _ => rfl⟩
      intro j hj; omega
    | succ k =>
      have h0 := hmin 0 (by omega)
      simp only [Nat.add_zero, byteAddr] at h0
      have hrec := ih (m.WriteByte ((a + i % 4294967296) % 4294967296) b).2 (i + 1) k
        (by omega)
        (by rw [writeByte_faults, show i + 1 + k = i + (k + 1) by omega]; exact hf)
        (fun j hj => by
          rw [writeByte_faults, show i + 1 + j = i + (j + 1) by omega]
          exact hmin (j + 1) (by omega))
        (by omega)
      have hw : m.WriteByte ((a + i % 4294967296) % 4294967296) b
          = (none, { m with data :=
              Function.update m.data ((a + i % 4294967296) % 4294967296) b }) := by
        simp only [phyMemory.WriteByte, h0]
      rw [hw] at hrec
      simp only at hrec
      simp only [writeResp, hw]
      obtain ⟨h1, h2, h3⟩ := hrec
      refine ⟨h1, ?_, ?_⟩
      · intro j hj hl
        cases j with
        | zero =>
          rw [h3 _ (fun j' hj' => by simp only [byteAddr]; omega)]
          simp [byteAddr]
        | succ j =>
          have := h2 j (by omega) (by simp only [List.length_cons] at hl; omega)
          rw [show i + 1 + j = i + (j + 1) by omega] at this
          simpa using this
      · intro x hx
        rw [h3 x (fun j hj => by
          rw [show i + 1 + j = i + (j + 1) by omega]; exact hx (j + 1) (by omega))]
        have hx0 := hx 0 (by omega)
        simp only [Nat.add_zero, byteAddr] at hx0
        simp only [Function.update_apply, if_neg hx0]

/-- C15: fault during the response copy.  When dispatch returns `(resp, 0)`
fitting `vpc.MaxLen` and responseBufSize and `k` is the first index whose write
faults, `invoke` returns that fault, control keeps its value, responseLen holds
`len(resp)`, responseCode is not written, guest memory holds `resp[j]` at
`responseAddr + j` for every `j < k`, and every other byte of guest memory is
as before. -/
theorem C15_response_copy_fault (V : vpc.Consts) (c c1 : calls) (req resp : Bytes)
    (k : Nat) (e : Excep)
    (hctl : c.control ≠ 0) (hreq : c.fetchReq = .ok req)
    (hcall : c.call V c.control c.serviceId req = ((resp, 0, none), c1))
    (hmax : resp.len ≤ V.MaxLen) (hbuf : resp.len ≤ c.responseBufSize)
    (hk : k < resp.len)
    (hf : c.mem.writeFault ((c.responseAddr + k) % 4294967296) = some e)
    (hmin : ∀ j, j < k → c.mem.writeFault ((c.responseAddr + j) % 4294967296) = none) :
    (c.invoke V).1 = some e ∧ (c.invoke V).2.control = c.control ∧
    (c.invoke V).2.responseLen = resp.len ∧
    (c.invoke V).2.responseCode = c.responseCode ∧
    (∀ j, j < k → ∀ (hl : j < resp.toList.length),
      (c.invoke V).2.mem.data ((c.responseAddr + j) % 4294967296) = resp.toList[j]) ∧
    (∀ x, (∀ j, j < k → x ≠ (c.responseAddr + j) % 4294967296) →
      (c.invoke V).2.mem.data x = c.mem.data x) := by
  have hlt : resp.len < 4294967296 :=
    Nat.lt_of_le_of_lt hbuf (readWord_lt c.p callsResponseSize)
  have hu : uint32 (resp.len : Int) = resp.len := by
    rw [uint32_natCast, Nat.mod_eq_of_lt hlt]
  have hfr := call_frame V c c.control c.serviceId req
  have hsz := call_readWord V c c.control c.serviceId req callsResponseSize
    (by simp [callsResponseSize])
  have had := call_readWord V c c.control c.serviceId req callsResponseAddr
    (by simp [callsResponseAddr])
  have hrc := call_readWord V c c.control c.serviceId req callsResponseCode
    (by simp [callsResponseCode])
  rw [hcall] at hfr hsz had hrc
  simp only at hfr hsz had hrc
  have hst := invoke_store V c c1 req resp hctl hreq hcall hmax
    (by rw [hu, hsz]; exact hbuf)
  rw [storeResp_congr c _ _ _ (by exact hfr.1), had] at hst
  cases resp with
  | none => simp [Bytes.len] at hk
  | some l =>
    simp only [Bytes.len, Bytes.toList] at hk hlt hu ⊢
    obtain ⟨w1, w2, w3⟩ := writeResp_fault (c.p.readWord callsResponseAddr) e l c.mem 0 k hk
      (by simpa [byteAddr, calls.responseAddr] using hf)
      (fun j hj => by simpa [byteAddr, calls.responseAddr] using hmin j hj)
      (by omega)
    simp only [calls.storeResp] at hst
    generalize writeResp (c.p.readWord callsResponseAddr) c.mem 0 l = r at hst w1 w2 w3
    obtain ⟨ex, mm⟩ := r
    simp only at w1 w2 w3
    subst w1
    simp only at hst
    rw [hst]
    refine ⟨rfl, ?_, ?_, ?_, ?_, ?_⟩
    · simp only [calls.control]
      rw [readByte_writeWord _ _ _ _ (by simp [callsControl, callsResponseLen])]
      exact hfr.2.2.2.2 callsControl (by simp [callsControl])
    · simp only [calls.responseLen, Bytes.len]
      rw [readWord_writeWord_eq, hu, Nat.mod_eq_of_lt hlt]
    · simp only [calls.responseCode]
      rw [readWord_writeWord_ne _ _ _ _ (by simp [callsResponseCode, callsResponseLen]), hrc]
    · intro j hj hl
      have := w2 j hj hl
      simpa [byteAddr, calls.responseAddr] using this
    · intro x hx
      exact w3 x (fun j hj => by simpa [byteAddr, calls.responseAddr] using hx j hj)

/-- Witness of C15: a two-byte echo written at 4095, whose second byte is out
of range. -/
theorem C15_response_copy_fault_witness :
    ((demoCalls (demoRegs 1 7 100 2 4095 16) []).invoke demoConsts).1
      = some (Excep.fault 4 4096) ∧
    ((demoCalls (demoRegs 1 7 100 2 4095 16) []).invoke demoConsts).2.control
      = (demoCalls (demoRegs 1 7 100 2 4095 16) []).control ∧
    ((demoCalls (demoRegs 1 7 100 2 4095 16) []).invoke demoConsts).2.responseLen
      = Bytes.len (some [65, 66]) ∧
    ((demoCalls (demoRegs 1 7 100 2 4095 16) []).invoke demoConsts).2.responseCode
      = (demoCalls (demoRegs 1 7 100 2 4095 16) []).responseCode ∧
    (∀ j, j < 1 → ∀ (hl : j < (Bytes.toList (some [65, 66])).length),
      ((demoCalls (demoRegs 1 7 100 2 4095 16) []).invoke demoConsts).2.mem.data
        (((demoCalls (demoRegs 1 7 100 2 4095 16) []).responseAddr + j) % 4294967296)
        = (Bytes.toList (some [65, 66]))[j]) ∧
    (∀ x, (∀ j, j < 1 →
        x ≠ ((demoCalls (demoRegs 1 7 100 2 4095 16) []).responseAddr + j) % 4294967296) →
      ((demoCalls (demoRegs 1 7 100 2 4095 16) []).invoke demoConsts).2.mem.data x
        = (demoCalls (demoRegs 1 7 100 2 4095 16) []).mem.data x) :=
  C15_response_copy_fault demoConsts (demoCalls (demoRegs 1 7 100 2 4095 16) [])
    (demoCalls (demoRegs 1 7 100 2 4095 16) []) (some [65, 66]) (some [65, 66]) 1
    (Excep.fault 4 4096) (by decide) (by rfl) (by rfl) (by decide) (by decide) (by decide)
    (by rfl) (by intro j hj; interval_cases j; rfl)

theorem fetchReq_ok (c : calls)
    (h : ∀ i, i < c.requestLen → c.mem.readFault ((c.requestAddr + i) % 4294967296) = none) :
    c.fetchReq = .ok (if c.requestLen > 0
      then some ((List.range c.requestLen).map
        (fun i => c.mem.data ((c.requestAddr + i) % 4294967296)))
      else none) := by
  have := copyReq_ok c.mem c.requestAddr c.requestLen 0
    (fun j hj => by simpa [byteAddr] using h j hj)
  simp only [calls.requestAddr, calls.requestLen] at this ⊢
  simp only [calls.fetchReq, this, byteAddr, Nat.zero_add, Nat.add_mod_mod]

/-- C16: byte-exact request marshaling.  For a pending state in which no read
of the request faults, the buffer handed to dispatch has length requestLen (it
is nil when requestLen is 0, whatever the memory) and its `i`-th byte is guest
memory at `(requestAddr + i) mod 2^32`; `invoke` continues from `call` applied
to exactly this buffer; and the bytes are read in increasing order, the first
faulting index of any other memory being the one reported. -/
theorem C16_request_marshaling (V : vpc.Consts) (c : calls) (hctl : c.control ≠ 0)
    (hnf : ∀ i, i < c.requestLen →
      c.mem.readFault ((c.requestAddr + i) % 4294967296) = none) :
    ∃ req : Bytes, c.fetchReq = .ok req ∧ req.len = c.requestLen ∧
      (∀ i (hi : i < req.toList.length),
        req.toList[i] = c.mem.data ((c.requestAddr + i) % 4294967296)) ∧
      (c.requestLen = 0 → req = none) ∧
      (∀ resp code c1 e, c.call V c.control c.serviceId req = ((resp, code, some e), c1) →
        c.invoke V = (some e, c1)) ∧
      (∀ resp code c1, c.call V c.control c.serviceId req = ((resp, code, none), c1) →
        code ≠ 0 → c.invoke V = (none, c1.respondCode code)) ∧
      (∀ (mem2 : phyMemory) (k : Nat) (e : Excep), k < c.requestLen →
        mem2.readFault ((c.requestAddr + k) % 4294967296) = some e →
        (∀ j, j < k → mem2.readFault ((c.requestAddr + j) % 4294967296) = none) →
        calls.fetchReq { c with mem := mem2 } = .error e) := by
  have hfr := fetchReq_ok c hnf
  refine ⟨_, hfr, ?_, ?_, ?_, ?_, ?_, ?_⟩
  · by_cases h0 : c.requestLen > 0
    · simp [h0, Bytes.len]
    · simp only [h0, if_false, Bytes.len]; omega
  · intro i hi
    by_cases h0 : c.requestLen > 0
    · simp only [h0, if_true, Bytes.toList] at hi ⊢
      simp
    · simp [h0, Bytes.toList] at hi
  · intro h0
    simp [h0]
  · intro resp code c1 e hc
    exact invoke_call_excep V c c1 _ resp code e hctl hfr hc
  · intro resp code c1 hc hcode
    exact invoke_code V c c1 _ resp code hctl hfr hc hcode
  · intro mem2 k e hk hf hmin
    exact fetchReq_fault { c with mem := mem2 } k e hk hf hmin

/-- Witness of C16: the two-byte request "AB" at address 100. -/
theorem C16_request_marshaling_witness :
    ∃ req : Bytes, (demoCalls (demoRegs 1 7 100 2 200 16) []).fetchReq = .ok req ∧
      req.len = (demoCalls (demoRegs 1 7 100 2 200 16) []).requestLen ∧
      (∀ i (hi : i < req.toList.length),
        req.toList[i] = (demoCalls (demoRegs 1 7 100 2 200 16) []).mem.data
          (((demoCalls (demoRegs 1 7 100 2 200 16) []).requestAddr + i) % 4294967296)) ∧
      ((demoCalls (demoRegs 1 7 100 2 200 16) []).requestLen = 0 → req = none) ∧
      (∀ resp code c1 e, (demoCalls (demoRegs 1 7 100 2 200 16) []).call demoConsts
          (demoCalls (demoRegs 1 7 100 2 200 16) []).control
          (demoCalls (demoRegs 1 7 100 2 200 16) []).serviceId req
          = ((resp, code, some e), c1) →
        (demoCalls (demoRegs 1 7 100 2 200 16) []).invoke demoConsts = (some e, c1)) ∧
      (∀ resp code c1, (demoCalls (demoRegs 1 7 100 2 200 16) []).call demoConsts
          (demoCalls (demoRegs 1 7 100 2 200 16) []).control
          (demoCalls (demoRegs 1 7 100 2 200 16) []).serviceId req
          = ((resp, code, none), c1) →
        code ≠ 0 →
        (demoCalls (demoRegs 1 7 100 2 200 16) []).invoke demoConsts
          = (none, c1.respondCode code)) ∧
      (∀ (mem2 : phyMemory) (k : Nat) (e : Excep),
        k < (demoCalls (demoRegs 1 7 100 2 200 16) []).requestLen →
        mem2.readFault
          (((demoCalls (demoRegs 1 7 100 2 200 16) []).requestAddr + k) % 4294967296)
          = some e →
        (∀ j, j < k → mem2.readFault
          (((demoCalls (demoRegs 1 7 100 2 200 16) []).requestAddr + j) % 4294967296)
          = none) →
        calls.fetchReq { demoCalls (demoRegs 1 7 100 2 200 16) [] with mem := mem2 }
          = .error e) :=
  C16_request_marshaling demoConsts (demoCalls (demoRegs 1 7 100 2 200 16) []) (by decide)
    (by
      intro i hi
      have h2 : i < 2 := hi
      have hr : (demoCalls (demoRegs 1 7 100 2 200 16) []).requestAddr = 100 := by decide
      rw [hr]
      interval_cases i <;> rfl)

theorem readByte_writeByte_ne (p : pageOffset) (off : Nat) (b : Byte) (off2 : Nat)
    (h : off2 ≠ off) : (p.writeByte off b).readByte off2 = p.readByte off2 := by
  simp only [pageOffset.writeByte, pageOffset.readByte]
  exact Function.update_noteq h _ _

/-- Past a successful request copy, `invoke` writes only the control byte and
the responseCode and responseLen registers of the block that dispatch left. -/
theorem invoke_after_call (V : vpc.Consts) (c : calls) (req : Bytes) (hctl : c.control ≠ 0)
    (hfr : c.fetchReq = .ok req) :
    ∀ off, (1 ≤ off ∧ off < 24) ∨ 32 ≤ off →
      (c.invoke V).2.p.readByte off
        = (c.call V c.control c.serviceId req).2.p.readByte off := by
  intro off hoff
  generalize hcl : c.call V c.control c.serviceId req = r
  obtain ⟨⟨resp, code, ex⟩, c1⟩ := r
  have hrc : ∀ (d : calls) (x : Int),
      (d.respondCode x).p.readByte off = d.p.readByte off :=
    fun d x => respondCode_readByte d x off (by omega)
  have hrl : ∀ (q : pageOffset) (v : Nat),
      (q.writeWord callsResponseLen v).readByte off = q.readByte off :=
    fun q v => readByte_writeWord q callsResponseLen v off
      (by simp only [callsResponseLen]; omega)
  cases ex with
  | some e => rw [invoke_call_excep V c c1 req resp code e hctl hfr hcl]
  | none =>
    by_cases hcode : code = 0
    · subst hcode
      by_cases hlen : resp.len > V.MaxLen
      · rw [invoke_oversize V c c1 req resp hctl hfr hcl hlen]
        exact hrc c1 _
      · by_cases hbuf : uint32 (resp.len : Int) > c1.p.readWord callsResponseSize
        · rw [invoke_smallbuf V c c1 req resp hctl hfr hcl (by omega) hbuf]
          rw [hrc]
          exact hrl c1.p _
        · rw [invoke_store V c c1 req resp hctl hfr hcl (by omega) (by omega)]
          split
          · exact hrl c1.p _
          · simp only
            rw [readByte_writeByte_ne _ _ _ _ (by simp only [callsControl]; omega),
              readByte_writeWord _ callsResponseCode _ off
                (by simp only [callsResponseCode]; omega)]
            exact hrl c1.p _
    · rw [invoke_code V c c1 req resp code hctl hfr hcl hcode]
      exact hrc c1 _

/-- The bytes of the block that `invoke` never writes. -/
theorem invoke_readByte (V : vpc.Consts) (c : calls) :
    ∀ off, (1 ≤ off ∧ off < 4) ∨ (8 ≤ off ∧ off < 24) ∨ 32 ≤ off →
      (c.invoke V).2.p.readByte off = c.p.readByte off := by
  intro off hoff
  by_cases hctl : c.control = 0
  · rw [invoke_idle V c hctl]
  cases hfr : c.fetchReq with
  | error e => rw [invoke_fetch_fault V c e hctl hfr]
  | ok req =>
    rw [invoke_after_call V c req hctl hfr off (by omega)]
    exact (call_frame V c c.control c.serviceId req).2.2.2.2 off (by omega)

/-- C17 (counterexample): a pending poll whose front message (origin 5, ten
bytes) does not fit a response buffer of 4: `invoke` writes the non-zero code
`ErrSmallBuf` to responseCode, and serviceId, 0 before, is 5 afterwards. -/
theorem C17_counterexample :
    (demoCalls (demoRegs 1 0 0 0 200 4) [⟨5, some (List.replicate 10 7)⟩]).control ≠ 0 ∧
    ((demoCalls (demoRegs 1 0 0 0 200 4) [⟨5, some (List.replicate 10 7)⟩]).invoke
      demoConsts).1 = none ∧
    ((demoCalls (demoRegs 1 0 0 0 200 4) [⟨5, some (List.replicate 10 7)⟩]).invoke
      demoConsts).2.responseCode = demoConsts.ErrSmallBuf ∧
    ((demoCalls (demoRegs 1 0 0 0 200 4) [⟨5, some (List.replicate 10 7)⟩]).invoke
      demoConsts).2.responseCode ≠ 0 ∧
    (demoCalls (demoRegs 1 0 0 0 200 4) [⟨5, some (List.replicate 10 7)⟩]).serviceId = 0 ∧
    ((demoCalls (demoRegs 1 0 0 0 200 4) [⟨5, some (List.replicate 10 7)⟩]).invoke
      demoConsts).2.serviceId = 5 ∧
    ((demoCalls (demoRegs 1 0 0 0 200 4) [⟨5, some (List.replicate 10 7)⟩]).invoke
      demoConsts).2.serviceId
      ≠ (demoCalls (demoRegs 1 0 0 0 200 4) [⟨5, some (List.replicate 10 7)⟩]).serviceId := by
  refine ⟨by decide, by decide, by decide, by decide, by decide, by decide, by decide⟩

/-- C17 (amended): for a pending state whose tick returns no exception (in
particular whenever a non-zero value is written to responseCode), the serviceId
register holds the same value as before, unless the tick was a control-channel
poll that found a message (control = 1, serviceId = 0, non-empty queue), where
it holds the origin id of the front message. -/
theorem C17_destination_on_error (V : vpc.Consts) (c : calls) (hctl : c.control ≠ 0)
    (hnone : (c.invoke V).1 = none) :
    (¬ (c.control = 1 ∧ c.serviceId = 0 ∧ c.queue ≠ []) →
      (c.invoke V).2.serviceId = c.serviceId) ∧
    (∀ m rest, c.control = 1 → c.serviceId = 0 → c.queue = m :: rest →
      (c.invoke V).2.serviceId = m.service % 4294967296) := by
  cases hfr : c.fetchReq with
  | error e =>
    rw [invoke_fetch_fault V c e hctl hfr] at hnone
    simp at hnone
  | ok req =>
    have hsv : (c.invoke V).2.serviceId = (c.call V c.control c.serviceId req).2.serviceId :=
      readWord_congr _ _ callsService (fun k hk =>
        invoke_after_call V c req hctl hfr (callsService + k)
          (by simp only [callsService]; omega))
    rw [hsv]
    constructor
    · intro hnp
      rcases call_cases V c c.control c.serviceId req with h | ⟨m, rest, h1, h2, h3, _⟩
      · rw [h]
      · exact absurd ⟨h2, h1, by rw [h3]; simp⟩ hnp
    · intro m rest h1 h2 h3
      have := callControl_poll_front V c req m rest h3
      rw [h1, h2]
      simp only [calls.call, if_true, this, calls.serviceId]
      exact readWord_writeWord_eq _ _ _

/-- Witness of C17: an unregistered service id keeps its serviceId register. -/
theorem C17_destination_on_error_witness :
    (¬ ((demoCalls (demoRegs 1 99 100 2 200 16) []).control = 1 ∧
        (demoCalls (demoRegs 1 99 100 2 200 16) []).serviceId = 0 ∧
        (demoCalls (demoRegs 1 99 100 2 200 16) []).queue ≠ []) →
      ((demoCalls (demoRegs 1 99 100 2 200 16) []).invoke demoConsts).2.serviceId
        = (demoCalls (demoRegs 1 99 100 2 200 16) []).serviceId) ∧
    (∀ m rest, (demoCalls (demoRegs 1 99 100 2 200 16) []).control = 1 →
      (demoCalls (demoRegs 1 99 100 2 200 16) []).serviceId = 0 →
      (demoCalls (demoRegs 1 99 100 2 200 16) []).queue = m :: rest →
      ((demoCalls (demoRegs 1 99 100 2 200 16) []).invoke demoConsts).2.serviceId
        = m.service % 4294967296) :=
  C17_destination_on_error demoConsts (demoCalls (demoRegs 1 99 100 2 200 16) [])
    (by decide) (by decide)

/-- C18: guest-input registers are read-only to the gate.  Whatever the state
and the outcome, requestAddr, requestLen, responseAddr and responseBufSize are
the same after `invoke`, and so is every byte of the block outside the control
byte and the serviceId, responseCode and responseLen registers. -/
theorem C18_guest_inputs_read_only (V : vpc.Consts) (c : calls) :
    (c.invoke V).2.requestAddr = c.requestAddr ∧
    (c.invoke V).2.requestLen = c.requestLen ∧
    (c.invoke V).2.responseAddr = c.responseAddr ∧
    (c.invoke V).2.responseBufSize = c.responseBufSize ∧
    (∀ off, off ≠ callsControl →
      ¬ (callsService ≤ off ∧ off < callsService + 4) →
      ¬ (callsResponseCode ≤ off ∧ off < callsResponseCode + 4) →
      ¬ (callsResponseLen ≤ off ∧ off < callsResponseLen + 4) →
      (c.invoke V).2.p.readByte off = c.p.readByte off) := by
  have hw : ∀ off, 8 ≤ off → off + 4 ≤ 24 →
      (c.invoke V).2.p.readWord off = c.p.readWord off :=
    fun off h1 h2 => readWord_congr _ _ off
      (fun k hk => invoke_readByte V c (off + k) (by omega))
  refine ⟨hw callsRequestAddr (by simp [callsRequestAddr]) (by simp [callsRequestAddr]),
    hw callsRequestLen (by simp [callsRequestLen]) (by simp [callsRequestLen]),
    hw callsResponseAddr (by simp [callsResponseAddr]) (by simp [callsResponseAddr]),
    hw callsResponseSize (by simp [callsResponseSize]) (by simp [callsResponseSize]), ?_⟩
  intro off h0 h1 h2 h3
  simp only [callsControl, callsService, callsResponseCode, callsResponseLen] at h0 h1 h2 h3
  exact invoke_readByte V c off (by omega)

end arch

namespace sempass

theorem wrap64_of_inInt64 (x : ℤ) (h : inInt64 x) : wrap64 x = x := by
  unfold inInt64 at h
  unfold wrap64
  omega

theorem uint64_of_nonneg (n : ℤ) (h0 : 0 ≤ n) (h : inInt64 n) : uint64 n = n.toNat := by
  unfold inInt64 at h
  unfold uint64
  omega

theorem wrap64_shl_large (a : ℤ) (n : ℕ) (h : 64 ≤ n) : wrap64 (a * 2 ^ n) = 0 := by
  obtain ⟨k, rfl⟩ := Nat.exists_eq_add_of_le h
  have : a * 2 ^ (64 + k) = (a * 2 ^ k) * 18446744073709551616 := by
    rw [pow_add]; ring
  unfold wrap64
  rw [this, Int.add_comm, Int.add_mul_emod_self]
  rfl

theorem shr_large (a : ℤ) (n : ℕ) (ha : inInt64 a) (h : 64 ≤ n) :
    a / 2 ^ n = if a < 0 then -1 else 0 := by
  unfold inInt64 at ha
  have hp : (18446744073709551616 : ℤ) ≤ 2 ^ n := by
    have : (2 : ℤ) ^ 64 ≤ 2 ^ n := pow_le_pow_right₀ (by norm_num) h
    simpa using this
  by_cases hneg : a < 0
  · simp only [hneg, if_true]
    have h1 : (a + 1 * 2 ^ n) / 2 ^ n = a / 2 ^ n + 1 :=
      Int.add_mul_ediv_right a 1 (by positivity)
    have h2 : (a + 1 * 2 ^ n) / 2 ^ n = 0 :=
      Int.ediv_eq_zero_of_lt (by omega) (by omega)
    omega
  · simp only [hneg, if_false]
    exact Int.ediv_eq_zero_of_lt (by omega) (by omega)

theorem shr_small_inInt64 (a : ℤ) (n : ℕ) (ha : inInt64 a) :
    inInt64 (a / 2 ^ n) := by
  unfold inInt64 at ha ⊢
  have hp : (0 : ℤ) < 2 ^ n := by positivity
  constructor
  · by_cases hneg : a < 0
    · have : (-9223372036854775808 : ℤ) * 2 ^ n ≤ a := by nlinarith
      exact Int.le_ediv_of_mul_le hp this
    · have := Int.ediv_nonneg (show 0 ≤ a by omega) (le_of_lt hp)
      omega
  · by_cases hneg : a < 0
    · have := Int.ediv_neg' hneg hp
      omega
    · have := Int.ediv_le_self (2 ^ n) (show 0 ≤ a by omega)
      omega

theorem shl64_eq (a n : ℤ) (h0 : 0 ≤ n) (hn : inInt64 n) :
    shl64 a n = some (wrap64 (a * 2 ^ n.toNat)) := by
  unfold shl64
  rw [if_neg (by omega), uint64_of_nonneg n h0 hn]
  by_cases h : n.toNat ≥ 64
  · rw [if_pos h, wrap64_shl_large a _ h]
  · rw [if_neg h]

theorem shr64_eq (a n : ℤ) (ha : inInt64 a) (h0 : 0 ≤ n) (hn : inInt64 n) :
    shr64 a n = some (wrap64 (a / 2 ^ n.toNat)) := by
  unfold shr64
  rw [if_neg (by omega), uint64_of_nonneg n h0 hn]
  by_cases h : n.toNat ≥ 64
  · rw [if_pos h, shr_large a _ ha h]
    by_cases hneg : a < 0
    · simp only [hneg, if_true]; rfl
    · simp only [hneg, if_false]; rfl
  · rw [if_neg h, wrap64_of_inInt64 _ (shr_small_inInt64 a _ ha)]


/-- The constant built by the closure `r` holds its argument; when that is the
wrapped value of `y`, it is the `int64` congruent to `y` modulo 2^64. -/
theorem numExpr_wrapped (x y : ℤ) (h : x = wrap64 y) :
    ∃ w, some (numExpr x)
        = some (tast.Expr.Const { T := types.T.Const w types.T.number, single := true }) ∧
      inInt64 w ∧ (w - y) % 18446744073709551616 = 0 := by
  refine ⟨x, rfl, ?_, ?_⟩
  · subst h; unfold inInt64 wrap64; omega
  · subst h; unfold wrap64; omega

/-- C19: guarded constant folding.  For number constants `va`, `vb`,
`binaryOpNums` never evaluates a division or remainder by zero nor a shift by a
negative count; it reports one error and returns nil exactly when the operator
is "/" or "%" with `vb = 0`, a shift with `vb < 0`, or no known operator;
otherwise it reports nothing and returns an expression, which for the
arithmetic operators is the single number constant whose value is the `int64`
congruent modulo 2^64 to the mathematical result of `va op vb`. -/
theorem C19_guarded_constant_folding (b : builder) (opTok : lexing.Token)
    (A B : tast.Expr) (va vb : ℤ)
    (hA : types.NumConst A.R.Type = (va, true)) (hB : types.NumConst B.R.Type = (vb, true))
    (hva : inInt64 va) (hvb : inInt64 vb) :
    ∃ res b2, binaryOpNums b opTok A B = some (res, b2) ∧
      (errorCase opTok.Lit vb → res = none ∧ ∃ e, b2.errs = b.errs ++ [e]) ∧
      (¬ errorCase opTok.Lit vb → res ≠ none ∧ b2 = b) ∧
      (opTok.Lit ∈ arithOps → ¬ errorCase opTok.Lit vb →
        ∃ w, res = some (tast.Expr.Const
            { T := types.T.Const w types.T.number, single := true }) ∧
          inInt64 w ∧ (w - mathResult opTok.Lit va vb) % 18446744073709551616 = 0) := by
  obtain ⟨op, pos⟩ := opTok
  simp only [binaryOpNums, hA, hB]
  by_cases h1 : op = "+"
  · subst h1
    refine ⟨_, _, rfl, ?_, ?_, fun _ _ => numExpr_wrapped _ _ (by simp [mathResult, add64])⟩ <;>
      simp [errorCase, arithOps, compareOps]
  by_cases h2 : op = "-"
  · subst h2
    refine ⟨_, _, rfl, ?_, ?_, fun _ _ => numExpr_wrapped _ _ (by simp [mathResult, sub64])⟩ <;>
      simp [errorCase, arithOps, compareOps]
  by_cases h3 : op = "*"
  · subst h3
    refine ⟨_, _, rfl, ?_, ?_, fun _ _ => numExpr_wrapped _ _ (by simp [mathResult, mul64])⟩ <;>
      simp [errorCase, arithOps, compareOps]
  by_cases h4 : op = "&"
  · subst h4
    refine ⟨_, _, rfl, ?_, ?_, fun _ _ => numExpr_wrapped _ _ (by simp [mathResult, and64])⟩ <;>
      simp [errorCase, arithOps, compareOps]
  by_cases h5 : op = "|"
  · subst h5
    refine ⟨_, _, rfl, ?_, ?_, fun _ _ => numExpr_wrapped _ _ (by simp [mathResult, or64])⟩ <;>
      simp [errorCase, arithOps, compareOps]
  by_cases h6 : op = "^"
  · subst h6
    refine ⟨_, _, rfl, ?_, ?_, fun _ _ => numExpr_wrapped _ _ (by simp [mathResult, xor64])⟩ <;>
      simp [errorCase, arithOps, compareOps]
  by_cases h7 : op = "%"
  · subst h7
    by_cases hz : vb = 0
    · refine ⟨none, b.CodeErrorf pos "pl.divideByZero", by simp [hz], ?_, ?_, ?_⟩ <;>
        simp [errorCase, arithOps, compareOps, hz, builder.CodeErrorf]
    · refine ⟨some (numExpr (wrap64 (Int.tmod va vb))), b, by simp [hz, rem64], ?_, ?_,
        fun _ _ => numExpr_wrapped _ _ (by simp [mathResult])⟩ <;>
        simp [errorCase, arithOps, compareOps, hz]
  by_cases h8 : op = "/"
  · subst h8
    by_cases hz : vb = 0
    · refine ⟨none, b.CodeErrorf pos "pl.divideByZero", by simp [hz], ?_, ?_, ?_⟩ <;>
        simp [errorCase, arithOps, compareOps, hz, builder.CodeErrorf]
    · refine ⟨some (numExpr (wrap64 (Int.tdiv va vb))), b, by simp [hz, div64], ?_, ?_,
        fun _ _ => numExpr_wrapped _ _ (by simp [mathResult])⟩ <;>
        simp [errorCase, arithOps, compareOps, hz]
  by_cases h9 : op = "==" ∨ op = "!=" ∨ op = ">" ∨ op = "<" ∨ op = ">=" ∨ op = "<="
  · have hne : ¬ errorCase op vb := by
      rcases h9 with h | h | h | h | h | h <;> subst h <;>
        simp [errorCase, arithOps, compareOps]
    have hna : op ∉ arithOps := by
      rcases h9 with h | h | h | h | h | h <;> subst h <;> simp [arithOps]
    refine ⟨some (tast.Expr.OpExpr A ⟨op, pos⟩ B (tast.NewRef types.T.Bool)), b,
      by simp [h1, h2, h3, h4, h5, h6, h7, h8, h9], ?_, ?_, ?_⟩
    · intro h; exact absurd h hne
    · intro _; simp
    · intro h; exact absurd h hna
  by_cases h10 : op = "<<"
  · subst h10
    by_cases hz : vb < 0
    · refine ⟨none, b.Errorf pos, by simp [hz], ?_, ?_, ?_⟩ <;>
        simp [errorCase, arithOps, compareOps, hz, builder.Errorf]
    · have hs := shl64_eq va vb (by omega) hvb
      refine ⟨some (numExpr (wrap64 (va * 2 ^ vb.toNat))), b, by simp [hz, hs], ?_, ?_,
        fun _ _ => numExpr_wrapped _ _ (by simp [mathResult])⟩ <;>
        simp [errorCase, arithOps, compareOps, hz]
  by_cases h11 : op = ">>"
  · subst h11
    by_cases hz : vb < 0
    · refine ⟨none, b.Errorf pos, by simp [hz], ?_, ?_, ?_⟩ <;>
        simp [errorCase, arithOps, compareOps, hz, builder.Errorf]
    · have hs := shr64_eq va vb hva (by omega) hvb
      refine ⟨some (numExpr (wrap64 (va / 2 ^ vb.toNat))), b, by simp [hz, hs], ?_, ?_,
        fun _ _ => numExpr_wrapped _ _ (by simp [mathResult])⟩ <;>
        simp [errorCase, arithOps, compareOps, hz]
  · have he : errorCase op vb := by
      right; right
      simp only [not_or] at h9
      simp [arithOps, compareOps, h1, h2, h3, h4, h5, h6, h7, h8, h9, h10, h11]
    have hna : op ∉ arithOps := by
      simp [arithOps, h1, h2, h3, h4, h5, h6, h7, h8, h10, h11]
    refine ⟨none, b.CodeErrorf pos "pl.invalidOp",
      by simp [h1, h2, h3, h4, h5, h6, h7, h8, h9, h10, h11], ?_, ?_, ?_⟩
    · intro _; simp [builder.CodeErrorf]
    · intro h; exact absurd he h
    · intro h; exact absurd h hna

/-- Witness of C19: folding `7 / -2` gives the number constant -3. -/
theorem C19_guarded_constant_folding_witness :
    (∃ res b2, binaryOpNums ⟨[]⟩ ⟨"/", 3⟩ (numExpr 7) (numExpr (-2)) = some (res, b2) ∧
      (errorCase (lexing.Token.mk "/" 3).Lit (-2) →
        res = none ∧ ∃ e, b2.errs = (builder.mk []).errs ++ [e]) ∧
      (¬ errorCase (lexing.Token.mk "/" 3).Lit (-2) → res ≠ none ∧ b2 = ⟨[]⟩) ∧
      ((lexing.Token.mk "/" 3).Lit ∈ arithOps → ¬ errorCase (lexing.Token.mk "/" 3).Lit (-2) →
        ∃ w, res = some (tast.Expr.Const
            { T := types.T.Const w types.T.number, single := true }) ∧
          inInt64 w ∧
          (w - mathResult (lexing.Token.mk "/" 3).Lit 7 (-2)) % 18446744073709551616 = 0)) ∧
    binaryOpNums ⟨[]⟩ ⟨"/", 3⟩ (numExpr 7) (numExpr (-2))
      = some (some (tast.Expr.Const
          { T := types.T.Const (-3) types.T.number, single := true }), ⟨[]⟩) :=
  ⟨C19_guarded_constant_folding ⟨[]⟩ ⟨"/", 3⟩ (numExpr 7) (numExpr (-2)) 7 (-2)
    (by rfl) (by rfl) (by decide) (by decide), by decide⟩

/-- Negating a typed integer constant never reads its value: the result is the
constant 0 of the same type. -/
theorem unaryOpConst_typed_int_neg (b : builder) (pos : ℕ) (x : ℤ) (t : types.T)
    (ht : types.IsInteger t = true) :
    unaryOpConst b ⟨"-", pos⟩ (tast.NewConst (tast.NewRef (types.NewConstInt x t)))
      = (some (tast.NewConst (tast.NewRef (types.NewConstInt 0 t))), b) := by
  cases t <;> simp [types.IsInteger] at ht <;>
    simp [unaryOpConst, tast.NewConst, tast.NewRef, types.NewConstInt, tast.Expr.R,
      tast.Ref.IsSingle, types.NumConst, types.IsBasic, types.IsInteger, neg64, wrap64]

/-- C20 (the code at the failing input): negating the typed constant 5 of type
`int` gives the constant 0 of type `int`, not -5, while the untyped number
constant 5 is negated to -5. -/
theorem C20_typed_negation_ignores_value :
    unaryOpConst ⟨[]⟩ ⟨"-", 3⟩
        (tast.NewConst (tast.NewRef (types.NewConstInt 5 types.T.Int)))
      = (some (tast.NewConst (tast.NewRef (types.NewConstInt 0 types.T.Int))), ⟨[]⟩) ∧
    unaryOpConst ⟨[]⟩ ⟨"-", 3⟩
        (tast.NewConst (tast.NewRef (types.NewConstInt 5 types.T.Int)))
      ≠ (some (tast.NewConst (tast.NewRef (types.NewConstInt (-5) types.T.Int))), ⟨[]⟩) ∧
    unaryOpConst ⟨[]⟩ ⟨"-", 3⟩ (tast.NewConst (tast.NewRef (types.NewNumber 5)))
      = (some (tast.NewConst (tast.NewRef (types.NewNumber (-5)))), ⟨[]⟩) := by
  refine ⟨by decide, by decide, by decide⟩

end sempass
